import Mathlib

/-!
Verification of the freebean ledger interpreter.

This file is a shallow embedding of the freebean sources:
  * `pkg/core` (dates, commodities, accounts, lots, the Context),
  * `pkg/functions` (the built-in ledger vocabulary, transfers, transactions),
  * `pkg/parser` (the character-level lexer and the RPN stack machine).

Go maps are modelled as association lists with Go map semantics
(`mapLookup` / `mapInsert` / `mapErase`); Go `*Account` and `*Commodity`
pointers held inside transient values are modelled by the unique map key
(the name), which coincides with pointer identity for every object drawn
from the Context's maps.  `shopspring/decimal` values are modelled as exact
rationals, which matches the library's exact decimal arithmetic on the
operations the code uses (parse, add, sub, equality, zero test).
-/

namespace Freebean

/-! ## Association lists with Go map semantics -/

/-- Lookup in an association list, first match wins (keys are unique in all
reachable states, mirroring a Go `map`). -/
def mapLookup {α : Type} : List (String × α) → String → Option α
  | [], _ => none
  | (k, v) :: rest, key => if k = key then some v else mapLookup rest key

/-- Go `m[k] = v`: replace the binding if the key is present, else append. -/
def mapInsert {α : Type} : List (String × α) → String → α → List (String × α)
  | [], k, v => [(k, v)]
  | (k0, v0) :: rest, k, v =>
    if k0 = k then (k, v) :: rest else (k0, v0) :: mapInsert rest k v

/-- Go `delete(m, k)`. -/
def mapErase {α : Type} : List (String × α) → String → List (String × α)
  | [], _ => []
  | (k0, v0) :: rest, k =>
    if k0 = k then mapErase rest k else (k0, v0) :: mapErase rest k

/-! ## Integer parsing: Go `strconv.ParseInt(s, 10, 32)` -/

/-- Digit run to a natural number. -/
def digitsToNat (ds : List Char) : Nat :=
  ds.foldl (fun a c => 10 * a + (c.toNat - '0'.toNat)) 0

/-- Leading sign character, mirroring `strconv.ParseInt`. Returns
(negative?, rest). -/
def splitSign : List Char → Bool × List Char
  | '-' :: r => (true, r)
  | '+' :: r => (false, r)
  | l => (false, l)

/-- Go `strconv.ParseInt(s, 10, 32)`: optional sign, a nonempty digit run,
nothing else, and the value must fit in a signed 32-bit integer. -/
def parseInt32 (cs : List Char) : Option Int :=
  let (neg, rest) := splitSign cs
  if rest.isEmpty then none
  else if rest.all Char.isDigit then
    let n : Int := (digitsToNat rest : Nat)
    let v : Int := if neg then -n else n
    if v < -(2 ^ 31) ∨ (2 ^ 31 - 1 : Int) < v then none else some v
  else none

/-! ## Decimal parsing: `ParseDecimal` = comma strip + `decimal.NewFromString` -/

/-- `decimal.NewFromString` big-integer body: optional sign then a nonempty
digit run (after the decimal point has been spliced out). -/
def parseBigIntBody (cs : List Char) : Option Int :=
  let (neg, rest) := splitSign cs
  if rest.isEmpty then none
  else if rest.all Char.isDigit then
    let n : Int := (digitsToNat rest : Nat)
    some (if neg then -n else n)
  else none

/-- Split the mantissa body at its single decimal point, as
`decimal.NewFromString` does: more than one '.' is an error.  Returns the
digits with the point removed and the implied (nonpositive) exponent. -/
def splitDecimalPoint (cs : List Char) : Option (List Char × Int) :=
  match cs.findIdx? (· = '.') with
  | none => some (cs, 0)
  | some i =>
    let before := cs.take i
    let after := cs.drop (i + 1)
    if after.any (· = '.') then none
    else some (before ++ after, -(after.length : Int))

/-- The exact rational `n * 10 ^ e`, built with `mkRat` so that it reduces
inside the kernel. -/
def decimalValue (n : Int) (e : Int) : ℚ :=
  if 0 ≤ e then mkRat (n * (10 : Int) ^ e.toNat) 1
  else mkRat n ((10 : Nat) ^ (-e).toNat)

/-- `decimal.NewFromString` on a comma-stripped string, as an exact rational:
optional scientific-notation suffix (split at the first 'e'/'E', exponent
parsed as a 32-bit integer), a single optional decimal point, and a signed
nonempty digit body. -/
def newFromString (cs : List Char) : Option ℚ :=
  let eSplit : Option (List Char × Int) :=
    match cs.findIdx? (fun c => c = 'e' ∨ c = 'E') with
    | none => some (cs, 0)
    | some i =>
      match parseInt32 (cs.drop (i + 1)) with
      | none => none
      | some e => some (cs.take i, e)
  match eSplit with
  | none => none
  | some (body, e) =>
    match splitDecimalPoint body with
    | none => none
    | some (digits, pexp) =>
      match parseBigIntBody digits with
      | none => none
      | some n => some (decimalValue n (e + pexp))

/-- `functions.ParseDecimal`: strip thousands-separator commas, then
`decimal.NewFromString`. -/
def ParseDecimal (s : String) : Option ℚ :=
  newFromString (s.toList.filter (· ≠ ','))

/-! ## Dates (`core.Date`)

`core.Date` holds plain integer fields.  Comparisons go through
`time.Date(...).After/Before`, i.e. through Go's normalizing conversion to an
absolute time at midnight UTC.  `toDays` is the standard civil-from-days
algorithm preceded by Go's month normalization; it differs from Go's absolute
second count only by a constant positive factor and offset, so all
comparisons agree. -/

structure Date where
  year : Int
  month : Int
  day : Int
deriving DecidableEq, Repr

/-- Normalized day number of a `Date` (days relative to 1970-01-01),
mirroring `time.Date`'s normalization of out-of-range months and days. -/
def Date.toDays (dt : Date) : Int :=
  let a := dt.month - 1
  let y0 := dt.year + a.fdiv 12
  let m := a.emod 12 + 1
  let y := if m ≤ 2 then y0 - 1 else y0
  let era := y.fdiv 400
  let yoe := y - era * 400
  let mp := (m + 9).emod 12
  let doy := (153 * mp + 2).fdiv 5
  let doe := yoe * 365 + yoe.fdiv 4 - yoe.fdiv 100 + doy
  era * 146097 + doe - 719468 + (dt.day - 1)

/-- `core.Date.After` via `time.Time.After`. -/
def Date.After (d u : Date) : Bool := decide (u.toDays < d.toDays)

/-- `core.Date.Before` via `time.Time.Before`. -/
def Date.Before (d u : Date) : Bool := decide (d.toDays < u.toDays)

/-- `core.Date.Equal` compares the raw fields (no normalization). -/
def Date.Equal (d u : Date) : Bool :=
  decide (d.year = u.year) && decide (d.month = u.month) && decide (d.day = u.day)

/-- `core.Date.EqualOrAfter`. -/
def Date.EqualOrAfter (d u : Date) : Bool := d.Equal u || d.After u

/-- The zero `core.Date`. -/
def zeroDate : Date := ⟨0, 0, 0⟩

/-- `core.Date.IsZero`. -/
def Date.IsZero (d : Date) : Bool := d.Equal zeroDate

/-! ## The ledger domain model (`pkg/core`) -/

/-- A signed amount of one commodity (`core.Quantity`); the `*Commodity`
pointer is modelled by the commodity's unique name. -/
structure Quantity where
  amount : ℚ
  commodity : String
deriving DecidableEq, Repr

/-- `core.ExchangeRate`. -/
structure ExchangeRate where
  unitPrice : Quantity
  totalPrice : Quantity
deriving DecidableEq, Repr

/-- `core.Lot`. -/
structure Lot where
  name : String
  creationDate : Date
  balance : Quantity
  exchangeRate : Option ExchangeRate
deriving DecidableEq, Repr

/-- `core.Commodity`. -/
structure Commodity where
  name : String
  description : String
  creationDate : Date
  tags : List String
deriving DecidableEq, Repr

/-- `core.NewCommodity`: tags start empty. -/
def NewCommodity (name description : String) (creationDate : Date) : Commodity :=
  ⟨name, description, creationDate, []⟩

/-- `core.Account`.  `commodities` is the allow-list's key set (the Go map
stores `*Commodity` values, but only key membership and emptiness are ever
read); `tags` is the key set of the Go `map[string]bool`. -/
structure Account where
  name : String
  creationDate : Date
  closingDate : Date
  commodities : List String
  lots : List (String × List (String × Lot))
  tags : List String
  notes : List (String × String)
deriving DecidableEq, Repr

/-- `core.NewAccount`: fresh maps, and a `lots` map holding the default
(empty-named) lot with no commodities. -/
def NewAccount (name : String) (creationDate : Date) : Account :=
  { name := name
    creationDate := creationDate
    closingDate := zeroDate
    commodities := []
    lots := [("", [])]
    tags := []
    notes := [] }

/-- `core.Account.IsClosed`. -/
def Account.IsClosed (a : Account) (date : Date) : Bool :=
  !a.closingDate.Equal zeroDate && date.EqualOrAfter a.closingDate

/-- `core.Account.AddTag` (`map[string]bool` insert: at most one
membership). -/
def Account.AddTag (a : Account) (tag : String) : Account :=
  if tag ∈ a.tags then a else { a with tags := a.tags ++ [tag] }

/-- `core.Account.RemoveTag` (`delete` on the tag set). -/
def Account.RemoveTag (a : Account) (tag : String) : Account :=
  { a with tags := a.tags.filter (· ≠ tag) }

/-- `core.Commodity.AddTag`. -/
def Commodity.AddTag (c : Commodity) (tag : String) : Commodity :=
  if tag ∈ c.tags then c else { c with tags := c.tags ++ [tag] }

/-- `core.TagTarget`: an Account or Commodity held in the global tag index.
The Go interface value (a typed pointer) is modelled by the kind plus the
unique map key. -/
inductive TagTarget where
  | account (name : String)
  | commodity (name : String)
deriving DecidableEq, Repr

/-- `core.Context`: the process-wide ledger state. -/
structure Context where
  date : Date
  accounts : List (String × Account)
  commodities : List (String × Commodity)
  tags : List (String × List TagTarget)
deriving DecidableEq, Repr

/-- Modelled from the spec: `core.NewContext` (file `pkg/core/context.go` is
not among the provided sources; its callers show it builds a Context with
empty maps, and the spec states the clock "starts at the zero date"). -/
def NewContext : Context := ⟨zeroDate, [], [], []⟩

/-! ## Operand values and transfers (`pkg/functions`) -/

/-- `functions.Transfer`.  The `*core.Account` pointer is modelled by the
account's unique name, resolved against the Context's account map at use
sites. -/
structure Transfer where
  account : String
  lotName : String
  createLot : Bool
  quantity : Quantity
  exchangeRate : Option ExchangeRate
  comment : String
deriving DecidableEq, Repr

/-- `Transfer.Lot`: the fresh lot recorded when a transfer first populates a
lot/commodity slot. -/
def Transfer.mkLot (t : Transfer) (creationDate : Date) : Lot :=
  { name := t.lotName
    creationDate := creationDate
    balance := t.quantity
    exchangeRate := t.exchangeRate }

/-- `Transfer.GetTransferQuantity`: the exchange-aware quantity used by the
transaction balance check. -/
def Transfer.transferQuantity (t : Transfer) : Quantity :=
  match t.exchangeRate with
  | some er => er.totalPrice
  | none => t.quantity

/-- An operand stack element: the core vocabulary only ever pushes strings
and `*Transfer` values (`parser.Operands` stores `interface []`). -/
inductive Value where
  | text (s : String)
  | transfer (t : Transfer)
deriving DecidableEq, Repr

/-- Is this operand a Go `string`? -/
def Value.isText : Value → Bool
  | .text _ => true
  | .transfer _ => false

/-- Is this operand a Go `*Transfer`? -/
def Value.isTransfer : Value → Bool
  | .text _ => false
  | .transfer _ => true

/-- The string payload; only applied where the Go code uses an unchecked
`.(string)` cast that cannot fail by construction. -/
def Value.textOf : Value → String
  | .text s => s
  | .transfer _ => ""

/-- The transfer payload; only applied where the Go code uses an unchecked
`.(*Transfer)` cast that cannot fail by construction. -/
def Value.transferOf : Value → Transfer
  | .transfer t => t
  | .text _ => ⟨"", "", false, ⟨0, ""⟩, none, ""⟩

/-! ## Operand views (`parser.Operands`)

A function's operand view is the slice of the operand stack above the active
marker, listed bottom to top.  `Pop(n)` takes from the top (the end of the
list); the `GetValues` scans used by variadic functions walk backwards from
the top looking for the first non-string. -/

/-- The maximal all-string suffix of the view, as scanned by `AddNotesFunction`,
`OpenFunction`, `TagFunction`, `UntagFunction`, `TagCommodityFunction` and
`ParseTransferWithExchange`. -/
def trailingText (view : List Value) : List Value :=
  (view.reverse.takeWhile Value.isText).reverse

/-- What remains below the maximal all-string suffix. -/
def beforeTrailingText (view : List Value) : List Value :=
  (view.reverse.dropWhile Value.isText).reverse

/-! ## The built-in ledger functions (`pkg/functions/functions.go`)

Each Go function receives `(name, Operands, *Context)` and returns an
`error`; here a function maps the view contents and the Context to
`Except String (view contents after the call, new Context)`.  A returned
`.error` aborts the run (the Go parser stops at the first function error),
so no post-error state is observable through this interface; the transaction
machinery below additionally exposes the partially-updated Context that a
failed `xact` leaves behind in Go. -/

/-- `AddNotesFunction`. -/
def addNotesFn (view : List Value) (ctx : Context) : Except String (List Value × Context) :=
  let values := trailingText view
  if values.length < 1 then
    .error "add-notes: account name operand required, but no operands given"
  else if (values.length - 1) % 2 ≠ 0 then
    .error "add-notes: note name and note value operand pairs required, but odd number of operands given"
  else
    match values with
    | [] => .error "add-notes: account name operand required, but no operands given"
    | v0 :: pairs =>
      let an := v0.textOf
      match mapLookup ctx.accounts an with
      | none => .error ("add-notes: nonexistent account: " ++ an)
      | some a =>
        if a.IsClosed ctx.date then .error ("add-notes: closed account: " ++ an)
        else
          let rec addPairs : List (String × String) → List Value → List (String × String)
            | notes, n :: v :: rest => addPairs (mapInsert notes n.textOf v.textOf) rest
            | notes, _ => notes
          let a' := { a with notes := addPairs a.notes pairs }
          .ok (beforeTrailingText view, { ctx with accounts := mapInsert ctx.accounts an a' })

/-- `AssertFunction`. -/
def assertFn (view : List Value) (ctx : Context) : Except String (List Value × Context) :=
  match view.reverse with
  | cnv :: asv :: anv :: restRev =>
    match anv with
    | .transfer _ => .error "assert: non-string account name"
    | .text an =>
      match asv with
      | .transfer _ => .error "assert: non-string quantity"
      | .text as =>
        match ParseDecimal as with
        | none => .error ("assert: illegal decimal value " ++ as)
        | some q =>
          match cnv with
          | .transfer _ => .error "assert: non-string commodity name"
          | .text cn =>
            match mapLookup ctx.accounts an with
            | none => .error ("assert: nonexistent account: " ++ an)
            | some acct =>
              if acct.IsClosed ctx.date then .error ("assert: closed account: " ++ an)
              else if (mapLookup ctx.commodities cn).isNone then
                .error ("assert: nonexistent commodity: " ++ cn)
              else
                match mapLookup acct.lots "" with
                | none => .error ("assert: account " ++ an ++ " does not have a default lot")
                | some lots =>
                  match mapLookup lots cn with
                  | none =>
                    if q ≠ 0 then
                      .error ("assert: default lot in account " ++ an ++ " does not have " ++ cn)
                    else .ok (restRev.reverse, ctx)
                  | some l =>
                    if l.balance.amount ≠ q then
                      .error ("assert: default lot in account " ++ an ++ " differs from asserted amount")
                    else .ok (restRev.reverse, ctx)
  | _ => .error "assert: account name, amount, and commodity operands required, but too few given"

/-- `AssertLotFunction`. -/
def assertLotFn (view : List Value) (ctx : Context) : Except String (List Value × Context) :=
  match view.reverse with
  | cnv :: asv :: lnv :: anv :: restRev =>
    match anv with
    | .transfer _ => .error "assert-lot: non-string account name"
    | .text an =>
      match lnv with
      | .transfer _ => .error "assert-lot: non-string lot name"
      | .text ln =>
        match asv with
        | .transfer _ => .error "assert-lot: non-string quantity"
        | .text as =>
          match ParseDecimal as with
          | none => .error ("assert-lot: illegal decimal value " ++ as)
          | some q =>
            match cnv with
            | .transfer _ => .error "assert-lot: non-string commodity name"
            | .text cn =>
              match mapLookup ctx.accounts an with
              | none => .error ("assert-lot: nonexistent account: " ++ an)
              | some acct =>
                if acct.IsClosed ctx.date then .error ("assert-lot: closed account: " ++ an)
                else if (mapLookup ctx.commodities cn).isNone then
                  .error ("assert-lot: nonexistent commodity: " ++ cn)
                else
                  match mapLookup acct.lots ln with
                  | none => .error ("assert-lot: account " ++ an ++ " does not have the lot")
                  | some lots =>
                    match mapLookup lots cn with
                    | none =>
                      if q ≠ 0 then
                        .error ("assert-lot: lot in account " ++ an ++ " does not have " ++ cn)
                      else .ok (restRev.reverse, ctx)
                    | some l =>
                      if l.balance.amount ≠ q then
                        .error ("assert-lot: lot in account " ++ an ++ " differs from asserted amount")
                      else .ok (restRev.reverse, ctx)
  | _ => .error "assert-lot: account name, lot name, amount, and commodity operands required, but too few given"

/-- Sum of one commodity's balance across all of an account's lots, as the
loop in `AssertLotsSumFunction` computes it (addition is commutative and
associative, so the Go map iteration order is immaterial). -/
def sumLots (lots : List (String × List (String × Lot))) (cn : String) : ℚ :=
  lots.foldl
    (fun s p =>
      match mapLookup p.2 cn with
      | some l => s + l.balance.amount
      | none => s) 0

/-- `AssertLotsSumFunction`. -/
def assertLotsSumFn (view : List Value) (ctx : Context) : Except String (List Value × Context) :=
  match view.reverse with
  | cnv :: asv :: anv :: restRev =>
    match anv with
    | .transfer _ => .error "assert-lots-sum: non-string account name"
    | .text an =>
      match asv with
      | .transfer _ => .error "assert-lots-sum: non-string quantity"
      | .text as =>
        match ParseDecimal as with
        | none => .error ("assert-lots-sum: illegal decimal value " ++ as)
        | some q =>
          match cnv with
          | .transfer _ => .error "assert-lots-sum: non-string commodity name"
          | .text cn =>
            match mapLookup ctx.accounts an with
            | none => .error ("assert-lots-sum: nonexistent account: " ++ an)
            | some acct =>
              if acct.IsClosed ctx.date then .error ("assert-lots-sum: closed account: " ++ an)
              else if (mapLookup ctx.commodities cn).isNone then
                .error ("assert-lots-sum: nonexistent commodity: " ++ cn)
              else if sumLots acct.lots cn ≠ q then
                .error ("assert-lots-sum: lots differ from asserted amount")
              else .ok (restRev.reverse, ctx)
  | _ => .error "assert-lots-sum: account name, amount, and commodity operands required, but too few given"

/-- `CloseFunction`.  Only non-default lots (`len(lotName) != 0`) are
checked for nonzero balances before the closing date is set. -/
def closeFn (view : List Value) (ctx : Context) : Except String (List Value × Context) :=
  match view.reverse with
  | anv :: restRev =>
    match anv with
    | .transfer _ => .error "close: non-string account name"
    | .text an =>
      match mapLookup ctx.accounts an with
      | none => .error ("close: nonexistent account: " ++ an)
      | some acct =>
        if acct.IsClosed ctx.date then .error ("close: account is already closed: " ++ an)
        else if acct.lots.all
            (fun p => p.1 == "" || p.2.all (fun q => q.2.balance.amount == 0)) then
          let a' := { acct with closingDate := ctx.date }
          .ok (restRev.reverse, { ctx with accounts := mapInsert ctx.accounts an a' })
        else .error ("close: cannot close account " ++ an ++ " because a lot has a nonzero balance")
  | _ => .error "close: no operands given"

/-- `CloseLotFunction`: deletes the named lot (the empty lot name included)
once every commodity balance inside it is zero. -/
def closeLotFn (view : List Value) (ctx : Context) : Except String (List Value × Context) :=
  match view.reverse with
  | lnv :: anv :: restRev =>
    match anv with
    | .transfer _ => .error "close-lot: non-string account name"
    | .text an =>
      match lnv with
      | .transfer _ => .error "close-lot: non-string lot name"
      | .text ln =>
        match mapLookup ctx.accounts an with
        | none => .error ("close-lot: nonexistent account: " ++ an)
        | some acct =>
          if acct.IsClosed ctx.date then .error ("close-lot: closed account: " ++ an)
          else
            match mapLookup acct.lots ln with
            | none => .error ("close-lot: nonexistent lot in account " ++ an)
            | some lots =>
              if lots.all (fun q => q.2.balance.amount == 0) then
                let a' := { acct with lots := mapErase acct.lots ln }
                .ok (restRev.reverse, { ctx with accounts := mapInsert ctx.accounts an a' })
              else .error ("close-lot: cannot close lot in account " ++ an ++ " because it has a nonzero balance")
  | _ => .error "close-lot: account name and lot name operands required, but too few given"

/-- `CommentFunction`: pops one operand and checks that it is a string.
Nothing else about the view is inspected. -/
def commentFn (view : List Value) (ctx : Context) : Except String (List Value × Context) :=
  match view.reverse with
  | v :: restRev =>
    match v with
    | .text _ => .ok (restRev.reverse, ctx)
    | .transfer _ => .error "comment: non-string operand"
  | _ => .error "comment: no operands given"

/-- `CommodityFunction`. -/
def commodityFn (view : List Value) (ctx : Context) : Except String (List Value × Context) :=
  match view.reverse with
  | dv :: cnv :: restRev =>
    match cnv with
    | .transfer _ => .error "commodity: non-string commodity name"
    | .text cn =>
      match dv with
      | .transfer _ => .error "commodity: non-string description"
      | .text d =>
        if (mapLookup ctx.commodities cn).isSome then
          .error ("commodity: commodity already exists: " ++ cn)
        else
          .ok (restRev.reverse,
            { ctx with commodities := mapInsert ctx.commodities cn (NewCommodity cn d ctx.date) })
  | _ => .error "commodity: commodity name and description operands required, but too few given"

/-- `DateFunction`. -/
def dateFn (view : List Value) (ctx : Context) : Except String (List Value × Context) :=
  match view.reverse with
  | dyv :: mov :: yrv :: restRev =>
    match yrv with
    | .transfer _ => .error "date: non-string year"
    | .text year =>
      match mov with
      | .transfer _ => .error "date: non-string month"
      | .text month =>
        match dyv with
        | .transfer _ => .error "date: non-string day"
        | .text day =>
          match parseInt32 year.toList with
          | none => .error ("date: illegal year " ++ year)
          | some y =>
            match parseInt32 month.toList with
            | none => .error ("date: illegal month " ++ month)
            | some m =>
              match parseInt32 day.toList with
              | none => .error ("date: illegal day " ++ day)
              | some dy =>
                let d : Date := ⟨y, m, dy⟩
                if ctx.date.After d then
                  .error "date: specified date is before current date"
                else .ok (restRev.reverse, { ctx with date := d })
  | _ => .error "date: year, month, day operands required, but too few given"

/-- `CreateLotFunction`: binds a Transfer to a new lot and flags creation;
the lot must not already hold the transfer's commodity.  The Go code reads
the transfer's `*Account` pointer; here it is resolved by name (the pointer
was drawn from the account map when the transfer was built). -/
def createLotFn (view : List Value) (ctx : Context) : Except String (List Value × Context) :=
  match view.reverse with
  | lnv :: tv :: restRev =>
    match tv with
    | .text _ => .error "create-lot: operand is not a transfer"
    | .transfer t =>
      match lnv with
      | .transfer _ => .error "create-lot: non-string lot name"
      | .text ln =>
        match mapLookup ctx.accounts t.account with
        | none => .error ("create-lot: transfer refers to unknown account: " ++ t.account)
        | some acct =>
          if acct.IsClosed ctx.date then
            .error ("create-lot: transfer refers to closed account: " ++ t.account)
          else if (match mapLookup acct.lots ln with
                   | some ctolots => (mapLookup ctolots t.quantity.commodity).isSome
                   | none => false) then
            .error ("create-lot: lot " ++ ln ++ " already contains " ++ t.quantity.commodity)
          else
            .ok (restRev.reverse ++ [.transfer { t with lotName := ln, createLot := true }], ctx)
  | _ => .error "create-lot: transfer and lot name operands are required, but too few given"

/-- `LotFunction`: binds a Transfer to an existing lot. -/
def lotFn (view : List Value) (ctx : Context) : Except String (List Value × Context) :=
  match view.reverse with
  | lnv :: tv :: restRev =>
    match tv with
    | .text _ => .error "lot: operand is not a transfer"
    | .transfer t =>
      match lnv with
      | .transfer _ => .error "lot: non-string lot name"
      | .text ln =>
        match mapLookup ctx.accounts t.account with
        | none => .error ("lot: transfer refers to unknown account: " ++ t.account)
        | some acct =>
          if acct.IsClosed ctx.date then
            .error ("lot: transfer refers to closed account: " ++ t.account)
          else if (mapLookup acct.lots ln).isNone then
            .error ("lot: account " ++ t.account ++ " does not have the lot")
          else
            .ok (restRev.reverse ++ [.transfer { t with lotName := ln }], ctx)
  | _ => .error "lot: transfer and lot name operands are required, but too few given"

/-- Go `strings.HasPrefix`, byte-for-byte (written on the character list so
that it reduces inside the kernel). -/
def goHasPre (s pre : String) : Bool := pre.toList.isPrefixOf s.toList

/-- Key-set insert for an account's commodity allow-list (`map` insert with
only the key observable). -/
def listInsert (l : List String) (s : String) : List String :=
  if s ∈ l then l else l ++ [s]

/-- The allow-list loop of `OpenFunction`: each listed commodity must exist. -/
def addAllowList (ctx : Context) : Account → List Value → Except String Account
  | acct, [] => .ok acct
  | acct, v :: rest =>
    let cname := v.textOf
    if (mapLookup ctx.commodities cname).isSome then
      addAllowList ctx { acct with commodities := listInsert acct.commodities cname } rest
    else .error ("open: nonexistent commodity " ++ cname)

/-- `OpenFunction`: creates (or replaces, when the old account is closed)
an account named with a required prefix. -/
def openFn (view : List Value) (ctx : Context) : Except String (List Value × Context) :=
  let values := trailingText view
  match values with
  | [] => .error "open: no operands given"
  | v0 :: cnames =>
    let an := v0.textOf
    if !(goHasPre an "Assets:" || goHasPre an "Liabilities:" || goHasPre an "Income:"
        || goHasPre an "Expenses:" || goHasPre an "Equity:" || an = "Equity") then
      .error ("open: account has no required name: " ++ an)
    else if (match mapLookup ctx.accounts an with
             | some acct => !acct.IsClosed ctx.date
             | none => false) then
      .error ("open: account already exists: " ++ an)
    else
      match addAllowList ctx (NewAccount an ctx.date) cnames with
      | .error e => .error e
      | .ok acct =>
        .ok (beforeTrailingText view, { ctx with accounts := mapInsert ctx.accounts an acct })

/-- `SetCommentFunction`. -/
def setCommentFn (view : List Value) (ctx : Context) : Except String (List Value × Context) :=
  match view.reverse with
  | cv :: tv :: restRev =>
    match tv with
    | .text _ => .error "set-comment: not a transfer"
    | .transfer t =>
      match cv with
      | .transfer _ => .error "set-comment: non-string comment"
      | .text comment =>
        .ok (restRev.reverse ++ [.transfer { t with comment := comment }], ctx)
  | _ => .error "set-comment: transfer and comment string operands required, but too few given"

/-- One step of the tag loop shared by `TagFunction` and
`TagCommodityFunction`: append the target to the global index entry unless
it is already a member. -/
def tagIndexAdd (tags : List (String × List TagTarget)) (tag : String) (tgt : TagTarget) :
    List (String × List TagTarget) :=
  match mapLookup tags tag with
  | some tts => if tgt ∈ tts then tags else mapInsert tags tag (tts ++ [tgt])
  | none => mapInsert tags tag [tgt]

/-- The per-tag loop of `TagFunction`: updates the global index and the
account's own tag set for every listed tag. -/
def tagAccountLoop : Context → String → Account → List Value → Context × Account
  | ctx, _, a, [] => (ctx, a)
  | ctx, an, a, v :: rest =>
    let tg := v.textOf
    tagAccountLoop { ctx with tags := tagIndexAdd ctx.tags tg (.account an) } an (a.AddTag tg) rest

/-- `TagFunction`. -/
def tagFn (view : List Value) (ctx : Context) : Except String (List Value × Context) :=
  let values := trailingText view
  if values.length < 2 then
    .error "tag: account name and at least one tag operand required, but too few operands given"
  else
    match values with
    | [] => .error "tag: account name and at least one tag operand required, but too few operands given"
    | v0 :: tags =>
      let an := v0.textOf
      match mapLookup ctx.accounts an with
      | none => .error ("tag: tagging nonexistent account: " ++ an)
      | some acct =>
        if acct.IsClosed ctx.date then .error ("tag: closed account: " ++ an)
        else
          let (ctx', a') := tagAccountLoop ctx an acct tags
          .ok (beforeTrailingText view, { ctx' with accounts := mapInsert ctx'.accounts an a' })

/-- The per-tag loop of `TagCommodityFunction`. -/
def tagCommodityLoop : Context → String → Commodity → List Value → Context × Commodity
  | ctx, _, c, [] => (ctx, c)
  | ctx, cn, c, v :: rest =>
    let tg := v.textOf
    tagCommodityLoop { ctx with tags := tagIndexAdd ctx.tags tg (.commodity cn) } cn (c.AddTag tg) rest

/-- `TagCommodityFunction` (no closed-entity check: commodities are never
closed). -/
def tagCommodityFn (view : List Value) (ctx : Context) : Except String (List Value × Context) :=
  let values := trailingText view
  if values.length < 2 then
    .error "tag-commodity: commodity name and at least one tag operand required, but too few operands given"
  else
    match values with
    | [] => .error "tag-commodity: commodity name and at least one tag operand required, but too few operands given"
    | v0 :: tags =>
      let cn := v0.textOf
      match mapLookup ctx.commodities cn with
      | none => .error ("tag-commodity: tagging nonexistent commodity: " ++ cn)
      | some c =>
        let (ctx', c') := tagCommodityLoop ctx cn c tags
        .ok (beforeTrailingText view, { ctx' with commodities := mapInsert ctx'.commodities cn c' })

/-- `UntagFunction`'s swap-with-last removal loop over an index entry,
written on the array the Go slice denotes.  `m` is the scan cursor and `n`
the live length; matches are overwritten with the current last live element. -/
def goSwapRemoveAux (arr : Array TagTarget) (tgt : TagTarget) (m n : Nat) : Array TagTarget × Nat :=
  if h : m < n then
    if arr.getD m tgt = tgt then
      goSwapRemoveAux (arr.setD m (arr.getD (n - 1) tgt)) tgt m (n - 1)
    else
      goSwapRemoveAux arr tgt (m + 1) n
  else (arr, n)
termination_by n - m
decreasing_by
  · omega
  · omega

/-- The list an index entry holds after `UntagFunction`'s removal loop and
the `tts = tts[:n]` truncation. -/
def goSwapRemove (tts : List TagTarget) (tgt : TagTarget) : List TagTarget :=
  let (arr, n) := goSwapRemoveAux tts.toArray tgt 0 tts.length
  arr.toList.take n

/-- One tag's index update inside `UntagFunction`: remove the target from
the index entry via the swap-remove loop, reassigning the truncated slice or
deleting the key when it empties; an absent entry is left untouched. -/
def untagIndexRemove (tags : List (String × List TagTarget)) (tg : String) (tgt : TagTarget) :
    List (String × List TagTarget) :=
  match mapLookup tags tg with
  | some tts =>
    let tts' := goSwapRemove tts tgt
    if tts'.length ≠ 0 then mapInsert tags tg tts'
    else mapErase tags tg
  | none => tags

/-- The per-tag loop of `UntagFunction`: remove the account from the index
entry and from the account's tag set. -/
def untagAccountLoop : Context → String → Account → List Value → Context × Account
  | ctx, _, a, [] => (ctx, a)
  | ctx, an, a, v :: rest =>
    untagAccountLoop { ctx with tags := untagIndexRemove ctx.tags v.textOf (.account an) } an
      (a.RemoveTag v.textOf) rest

/-- `UntagFunction`. -/
def untagFn (view : List Value) (ctx : Context) : Except String (List Value × Context) :=
  let values := trailingText view
  if values.length < 2 then
    .error "untag: account name and at least one tag operand required, but too few operands given"
  else
    match values with
    | [] => .error "untag: account name and at least one tag operand required, but too few operands given"
    | v0 :: tags =>
      let an := v0.textOf
      match mapLookup ctx.accounts an with
      | none => .error ("untag: tagging nonexistent account: " ++ an)
      | some acct =>
        if acct.IsClosed ctx.date then .error ("untag: closed account: " ++ an)
        else
          let (ctx', a') := untagAccountLoop ctx an acct tags
          .ok (beforeTrailingText view, { ctx' with accounts := mapInsert ctx'.accounts an a' })

/-! ## Transfers and transactions (`transfer.go`, `transaction.go`) -/

/-- `ParseTransfer` (the body of `XferFunction` before the push). -/
def parseTransfer (view : List Value) (ctx : Context) :
    Except String (List Value × Transfer) :=
  match view.reverse with
  | cnv :: qv :: anv :: restRev =>
    match anv with
    | .transfer _ => .error "non-string account name"
    | .text an =>
      match qv with
      | .transfer _ => .error "non-string quantity"
      | .text q =>
        match cnv with
        | .transfer _ => .error "non-string commodity name"
        | .text cn =>
          match ParseDecimal q with
          | none => .error ("illegal decimal value " ++ q)
          | some amount =>
            match mapLookup ctx.accounts an with
            | none => .error ("nonexistent account: " ++ an)
            | some acct =>
              if acct.IsClosed ctx.date then .error ("closed account: " ++ an)
              else if (mapLookup ctx.commodities cn).isNone then
                .error ("nonexistent commodity: " ++ cn)
              else if acct.commodities ≠ [] ∧ cn ∉ acct.commodities then
                .error ("cannot transfer " ++ cn ++ " to or from account " ++ an)
              else
                .ok (restRev.reverse,
                  { account := an, lotName := "", createLot := false
                    quantity := ⟨amount, cn⟩, exchangeRate := none, comment := "" })
  | _ => .error "account name, quantity, and commodity name operands required, but too few given"

/-- `XferFunction`. -/
def xferFn (view : List Value) (ctx : Context) : Except String (List Value × Context) :=
  match parseTransfer view ctx with
  | .error e => .error ("xfer: " ++ e)
  | .ok (rest, t) => .ok (rest ++ [.transfer t], ctx)

/-- `ParseTransferWithExchange` (the body of `XferExchFunction`): seven
trailing string operands, a quantity plus a unit price and a total price. -/
def parseTransferWithExchange (view : List Value) (ctx : Context) :
    Except String (List Value × Transfer) :=
  let values := trailingText view
  if values.length < 7 then
    .error "account name, quantity, commodity name, unit price amount, unit price commodity name, total price amount, and total price commodity name operands are required, but too few given"
  else
    match view.reverse with
    | tpcnv :: tpqv :: upcnv :: upqv :: cnv :: qv :: anv :: restRev =>
      let an := anv.textOf
      let q := qv.textOf
      let cn := cnv.textOf
      let upq := upqv.textOf
      let upcn := upcnv.textOf
      let tpq := tpqv.textOf
      let tpcn := tpcnv.textOf
      match ParseDecimal q with
      | none => .error ("illegal decimal value " ++ q)
      | some amount =>
        match ParseDecimal upq with
        | none => .error ("illegal decimal value " ++ upq)
        | some upAmount =>
          match ParseDecimal tpq with
          | none => .error ("illegal decimal value " ++ tpq)
          | some tpAmount =>
            match mapLookup ctx.accounts an with
            | none => .error ("nonexistent account: " ++ an)
            | some acct =>
              if acct.IsClosed ctx.date then .error ("closed account: " ++ an)
              else if (mapLookup ctx.commodities cn).isNone then
                .error ("nonexistent commodity: " ++ cn)
              else if acct.commodities ≠ [] ∧ cn ∉ acct.commodities then
                .error ("cannot transfer " ++ cn ++ " to or from account " ++ an)
              else if (mapLookup ctx.commodities upcn).isNone then
                .error ("nonexistent unit price commodity: " ++ upcn)
              else if (mapLookup ctx.commodities tpcn).isNone then
                .error ("nonexistent total price commodity: " ++ tpcn)
              else
                .ok (restRev.reverse,
                  { account := an, lotName := "", createLot := false
                    quantity := ⟨amount, cn⟩
                    exchangeRate := some ⟨⟨upAmount, upcn⟩, ⟨tpAmount, tpcn⟩⟩
                    comment := "" })
    | _ => .error "account name, quantity, commodity name, unit price amount, unit price commodity name, total price amount, and total price commodity name operands are required, but too few given"

/-- `XferExchFunction`. -/
def xferExchFn (view : List Value) (ctx : Context) : Except String (List Value × Context) :=
  match parseTransferWithExchange view ctx with
  | .error e => .error ("xfer-exch: " ++ e)
  | .ok (rest, t) => .ok (rest ++ [.transfer t], ctx)

/-- The accumulating loop of `checkTransfers` over the tail. -/
def checkTransfersLoop (first : String) : Quantity → List Transfer → Option String
  | q, [] => if q.amount = 0 then none else some "transfers sum to a nonzero amount, not zero"
  | q, t :: rest =>
    let tq := t.transferQuantity
    if tq.commodity ≠ q.commodity then
      some ("transfer to " ++ t.account ++ " uses a different commodity than the transfer to " ++ first)
    else checkTransfersLoop first { q with amount := q.amount + tq.amount } rest

/-- `checkTransfers`: the double-entry invariant on the exchange-aware
quantities (`ParseTransaction` guarantees the list is nonempty before this
runs; the empty case is vacuous here). -/
def checkTransfers : List Transfer → Option String
  | [] => none
  | t0 :: rest => checkTransfersLoop t0.account t0.transferQuantity rest

/-- `Transfer.ExecuteTransfer`: applies one transfer to its account's lot
map, creating the lot when flagged, else adding to the existing balance or
creating a fresh per-commodity entry in an existing lot. -/
def executeTransfer (t : Transfer) (ctx : Context) : Except String Context :=
  match mapLookup ctx.accounts t.account with
  | none => .error ("nonexistent account: " ++ t.account)
  | some acct =>
    match mapLookup acct.lots t.lotName with
    | none =>
      if t.createLot then
        let a' := { acct with
          lots := mapInsert acct.lots t.lotName [(t.quantity.commodity, t.mkLot ctx.date)] }
        .ok { ctx with accounts := mapInsert ctx.accounts t.account a' }
      else if t.lotName = "" then
        .error ("account " ++ t.account ++ " does not have a default lot")
      else
        .error ("account " ++ t.account ++ " does not have the lot")
    | some ctol =>
      match mapLookup ctol t.quantity.commodity with
      | some l =>
        let l' := { l with balance := { l.balance with amount := l.balance.amount + t.quantity.amount } }
        let a' := { acct with
          lots := mapInsert acct.lots t.lotName (mapInsert ctol t.quantity.commodity l') }
        .ok { ctx with accounts := mapInsert ctx.accounts t.account a' }
      | none =>
        let a' := { acct with
          lots := mapInsert acct.lots t.lotName (mapInsert ctol t.quantity.commodity (t.mkLot ctx.date)) }
        .ok { ctx with accounts := mapInsert ctx.accounts t.account a' }

/-- `Transaction.Execute`: transfers are applied sequentially, in list
order; the first failure stops the loop and returns the error, with the
effects of every earlier transfer left in place (Go mutates the Context
through account pointers and performs no rollback). -/
def executeTransfers : List Transfer → Context → Context × Option String
  | [], ctx => (ctx, none)
  | t :: rest, ctx =>
    match executeTransfer t ctx with
    | .ok ctx' => executeTransfers rest ctx'
    | .error e => (ctx, some e)

/-- The semantic core of `XactFunction` once the operands have been decoded:
`checkTransfers` followed by `Transaction.Execute`.  The returned Context is
the Go Context after the call — partially updated when `Execute` fails. -/
def xactApply (ts : List Transfer) (ctx : Context) : Context × Option String :=
  match checkTransfers ts with
  | some e => (ctx, some e)
  | none => executeTransfers ts ctx

/-- `getTransferAndNoteOperandStartIndices` + the shape checks of
`ParseTransaction`, producing the decoded transfer list (notes do not touch
the Context and are dropped).  Errors mirror the Go checks in order. -/
def parseTransactionTransfers (view : List Value) :
    Except String (List Value × String × String × List Transfer) :=
  let notes := trailingText view
  let body := beforeTrailingText view
  let transfers := (body.reverse.takeWhile Value.isTransfer).reverse
  let front := (body.reverse.dropWhile Value.isTransfer).reverse
  if front.length = 0 then .error "entity and description operands are required"
  else if front.length = 1 then .error "description operand is required"
  else if transfers.length < 2 then .error "there must be at least two transfers"
  else if notes.length % 2 ≠ 0 then .error "the number of notes must be a multiple of two"
  else
    match (front.drop (front.length - 2)) with
    | [ev, dv] =>
      match ev with
      | .transfer _ => .error "non-string entity"
      | .text entity =>
        match dv with
        | .transfer _ => .error "non-string description"
        | .text description =>
          .ok (front.take (front.length - 2), entity, description, transfers.map Value.transferOf)
    | _ => .error "entity and description operands are required"

/-- `XactFunction` at the view level: decode, validate, execute.  A
validation or execution error aborts the run (the partially-updated Context
of a failed execution is observable through `xactApply`). -/
def xactFn (view : List Value) (ctx : Context) : Except String (List Value × Context) :=
  match parseTransactionTransfers view with
  | .error e => .error ("xact: " ++ e)
  | .ok (rest, _, _, ts) =>
    match xactApply ts ctx with
    | (ctx', none) => .ok (rest, ctx')
    | (_, some e) => .error ("xact: " ++ e)

/-- `GetCoreFunctions`: the registered name-to-function table. -/
def coreFunctions : List (String × (List Value → Context → Except String (List Value × Context))) :=
  [ ("add-notes", addNotesFn)
  , ("assert", assertFn)
  , ("assert-lot", assertLotFn)
  , ("assert-lots-sum", assertLotsSumFn)
  , ("close", closeFn)
  , ("close-lot", closeLotFn)
  , ("comment", commentFn)
  , ("commodity", commodityFn)
  , ("create-lot", createLotFn)
  , ("date", dateFn)
  , ("lot", lotFn)
  , ("open", openFn)
  , ("set-comment", setCommentFn)
  , ("tag", tagFn)
  , ("tag-commodity", tagCommodityFn)
  , ("untag", untagFn)
  , ("xact", xactFn)
  , ("xfer", xferFn)
  , ("xfer-exch", xferExchFn) ]

/-! ## The RPN stack machine (`pkg/parser/parser.go`)

The operand stack is a list bottom-to-top (mirroring the Go slice); the
marker stack keeps its top at the head (Go appends at the end and reads
`markerStack[len-1]`; only the top and the length are ever accessed).
A registered function is modelled generically as a transformer of its view's
contents, so theorems can quantify over arbitrary function behaviour. -/

/-- A registered `parser.Function`, acting on the view contents (bottom to
top). -/
abbrev FuncImpl : Type := List Value → Except String (List Value)

/-- The `parser.Parser` state (`operandStack`, `markerStack`, `silenced`). -/
structure PState where
  operandStack : List Value
  markerStack : List Nat
  silenced : Nat
deriving DecidableEq, Repr

/-- The empty state `NewParser` starts from. -/
def initPState : PState := ⟨[], [], 0⟩

/-- A lexed token as consumed by `Parser.Parse` (lexer errors and EOF end
the token stream and are treated by the surrounding loop). -/
inductive Token where
  | str (s : String)
  | quoted (s : String)
  | openParen
  | closeParen
deriving DecidableEq, Repr

/-- `getOperands`: the view floor is the top marker, or 0 with no open
scope. -/
def PState.floor (st : PState) : Nat := st.markerStack.headD 0

/-- One iteration of `Parser.Parse`'s token switch. -/
def stepToken (tbl : List (String × FuncImpl)) (st : PState) : Token → Except String PState
  | .str s =>
    if st.silenced ≠ 0 then .ok st
    else if s = "silence" then
      if st.markerStack = [] then .error "found silence outside parentheses"
      else .ok { st with silenced := st.markerStack.length }
    else
      match mapLookup tbl s with
      | some f =>
        match f (st.operandStack.drop st.floor) with
        | .error e => .error e
        | .ok view' => .ok { st with operandStack := st.operandStack.take st.floor ++ view' }
      | none => .ok { st with operandStack := st.operandStack ++ [.text s] }
  | .quoted s =>
    if st.silenced ≠ 0 then .ok st
    else .ok { st with operandStack := st.operandStack ++ [.text s] }
  | .openParen =>
    .ok { st with markerStack := st.operandStack.length :: st.markerStack }
  | .closeParen =>
    match st.markerStack with
    | [] => .error "closing parenthesis does not have a matching open parenthesis"
    | idx :: rest =>
      let sil := if st.markerStack.length = st.silenced then 0 else st.silenced
      if idx ≠ st.operandStack.length then
        .error "unconsumed operands at closing parenthesis"
      else .ok { operandStack := st.operandStack, markerStack := rest, silenced := sil }

/-- `Parser.Parse` over a finite token stream: the loop aborts at the first
error. -/
def runTokens (tbl : List (String × FuncImpl)) : PState → List Token → Except String PState
  | st, [] => .ok st
  | st, tok :: rest =>
    match stepToken tbl st tok with
    | .error e => .error e
    | .ok st' => runTokens tbl st' rest

/-- `Parser.Finish`: the post-run checks, reported in the code's order. -/
def finishRun (st : PState) : Except String Unit :=
  if st.operandStack.length > 0 then .error "unconsumed tokens left on stack at EOF"
  else if st.markerStack.length > 0 then .error "unclosed parentheses at EOF"
  else if st.silenced ≠ 0 then .error "parser evaluation silenced at EOF"
  else .ok ()

/-! ## The lexer (`pkg/parser/lexer.go`) -/

/-- The reasons `getFinalToken` can end the stream. -/
inductive LexErr where
  | eof
  | unterminatedEscape
  | unterminatedString
deriving DecidableEq, Repr

/-- A `GetNextToken` outcome. -/
inductive LexResult where
  | str (s : List Char)
  | quoted (s : List Char)
  | openParen
  | closeParen
  | err (e : LexErr)
deriving DecidableEq, Repr

/-- The `parser.Lexer` state. -/
structure LexState where
  lineNumber : Nat
  isEscaping : Bool
  isInString : Bool
  isInQuotedString : Bool
  token : List Char
  openParenSet : Bool
  closeParenSet : Bool
deriving DecidableEq, Repr

/-- `NewLexer`. -/
def initLexState : LexState := ⟨1, false, false, false, [], false, false⟩

/-- Go `unicode.IsSpace` on the Latin-1 range the lexer can meet. -/
def goIsSpace (c : Char) : Bool :=
  c = ' ' || c = '\t' || c = '\n' || c = '\x0b' || c = '\x0c' || c = '\r'
    || c = '\x85' || c = '\xa0'

/-- `addRuneAndGetToken`: feeds one rune to the state machine and reports a
completed token, if any. -/
def addRune (l : LexState) (c : Char) : Option LexResult × LexState :=
  let l := if c = '\n' then { l with lineNumber := l.lineNumber + 1 } else l
  if l.isEscaping then
    (none, { l with token := l.token ++ [c], isEscaping := false, isInString := true })
  else if c = '\\' then
    (none, { l with isEscaping := true })
  else if l.isInQuotedString then
    if c = '"' then
      (some (.quoted l.token), { l with token := [], isInString := false, isInQuotedString := false })
    else
      (none, { l with token := l.token ++ [c] })
  else if l.isInString then
    if c = '"' then
      (some (.str l.token), { l with token := [], isInQuotedString := true })
    else if c = '(' then
      (some (.str l.token), { l with token := [], isInString := false, openParenSet := true })
    else if c = ')' then
      (some (.str l.token), { l with token := [], isInString := false, closeParenSet := true })
    else if goIsSpace c then
      (some (.str l.token), { l with token := [], isInString := false })
    else
      (none, { l with token := l.token ++ [c] })
  else if goIsSpace c then
    (none, l)
  else if c = '"' then
    (none, { l with isInString := true, isInQuotedString := true })
  else if c = '(' then
    (some .openParen, l)
  else if c = ')' then
    (some .closeParen, l)
  else
    (none, { l with token := l.token ++ [c], isInString := true })

/-- `getFinalToken`: what `GetNextToken` reports once the reader is
exhausted.  An open quoted string is checked before a pending escape. -/
def getFinalToken (l : LexState) : LexResult × LexState :=
  if l.isInQuotedString then (.err .unterminatedString, l)
  else if l.isEscaping then (.err .unterminatedEscape, l)
  else if !l.isInString then (.err .eof, l)
  else (.str l.token, { l with isInString := false })

/-- `GetNextToken` on the remaining input characters: emit a buffered
structural token if one is pending, otherwise consume runes until a token
completes or the input ends. -/
def getNextToken (l : LexState) (input : List Char) : LexResult × LexState × List Char :=
  if l.openParenSet then (.openParen, { l with openParenSet := false }, input)
  else if l.closeParenSet then (.closeParen, { l with closeParenSet := false }, input)
  else
    let rec consume (l : LexState) : List Char → LexResult × LexState × List Char
      | [] => let (r, l') := getFinalToken l; (r, l', [])
      | c :: rest =>
        match addRune l c with
        | (some r, l') => (r, l', rest)
        | (none, l') => consume l' rest
    consume l input

/-! ## Running a ledger program (`pkg/functions/parser.go`)

`functions.Parser.Parse` registers every core function with the generic
stack machine, closing over the shared `*core.Context`.  `ledgerStep` is
`Parser.Parse`'s token switch with that wiring made explicit: the Context is
threaded through each function call. -/

/-- One token of a ledger run: `stepToken` with the core function table and
the Context threaded through. -/
def ledgerStep (st : PState) (ctx : Context) : Token → Except String (PState × Context)
  | .str s =>
    if st.silenced ≠ 0 then .ok (st, ctx)
    else if s = "silence" then
      if st.markerStack = [] then .error "found silence outside parentheses"
      else .ok ({ st with silenced := st.markerStack.length }, ctx)
    else
      match mapLookup coreFunctions s with
      | some f =>
        match f (st.operandStack.drop st.floor) ctx with
        | .error e => .error e
        | .ok (view', ctx') =>
          .ok ({ st with operandStack := st.operandStack.take st.floor ++ view' }, ctx')
      | none => .ok ({ st with operandStack := st.operandStack ++ [.text s] }, ctx)
  | .quoted s =>
    if st.silenced ≠ 0 then .ok (st, ctx)
    else .ok ({ st with operandStack := st.operandStack ++ [.text s] }, ctx)
  | .openParen =>
    .ok ({ st with markerStack := st.operandStack.length :: st.markerStack }, ctx)
  | .closeParen =>
    match st.markerStack with
    | [] => .error "closing parenthesis does not have a matching open parenthesis"
    | idx :: rest =>
      let sil := if st.markerStack.length = st.silenced then 0 else st.silenced
      if idx ≠ st.operandStack.length then
        .error "unconsumed operands at closing parenthesis"
      else .ok (⟨st.operandStack, rest, sil⟩, ctx)

/-- A whole ledger run over a finite token stream, aborting at the first
error. -/
def runLedger : PState × Context → List Token → Except String (PState × Context)
  | p, [] => .ok p
  | (st, ctx), tok :: rest =>
    match ledgerStep st ctx tok with
    | .error e => .error e
    | .ok p' => runLedger p' rest

/-- The Context a complete, successful ledger run produces. -/
def ledgerOutcome (prog : List Token) : Option Context :=
  match runLedger (initPState, NewContext) prog with
  | .ok (_, ctx) => some ctx
  | .error _ => none

/-- Balance held by one (account, lot, commodity) triple, zero when any
level is absent. -/
def lotBalance (ctx : Context) (an ln cn : String) : ℚ :=
  match mapLookup ctx.accounts an with
  | none => 0
  | some a =>
    match mapLookup a.lots ln with
    | none => 0
    | some ctol =>
      match mapLookup ctol cn with
      | none => 0
      | some l => l.balance.amount

/-- Is the named account present and closed at the Context's date? -/
def accountClosed (ctx : Context) (an : String) : Bool :=
  match mapLookup ctx.accounts an with
  | none => false
  | some a => a.IsClosed ctx.date

/-- Did the call succeed? -/
def exceptOk {ε α : Type} : Except ε α → Bool
  | .ok _ => true
  | .error _ => false

instance {ε α : Type} [DecidableEq ε] [DecidableEq α] : DecidableEq (Except ε α) := fun a b =>
  match a, b with
  | .ok x, .ok y =>
    if h : x = y then .isTrue (by rw [h]) else .isFalse (by intro hc; cases hc; exact h rfl)
  | .error x, .error y =>
    if h : x = y then .isTrue (by rw [h]) else .isFalse (by intro hc; cases hc; exact h rfl)
  | .ok _, .error _ => .isFalse (by intro hc; cases hc)
  | .error _, .ok _ => .isFalse (by intro hc; cases hc)

/-! ## Concrete ledger programs used by individual claims -/

/-- The spec's close scenario: `Assets:A open`, `Assets:A 5 USD xfer`,
`Equity -5 USD xfer`, `xact` (with a date, a commodity and the balancing
equity account set up first). -/
def c1Prelude : List Token :=
  [.str "2000", .str "1", .str "1", .str "date",
   .str "Assets:A", .str "open",
   .str "Equity", .str "open",
   .str "USD", .str "Dollar", .str "commodity",
   .str "Entity", .str "Desc",
   .str "Assets:A", .str "5", .str "USD", .str "xfer",
   .str "Equity", .str "-5", .str "USD", .str "xfer",
   .str "xact"]

/-- The close scenario followed by `Assets:A close`. -/
def c1Close : List Token := c1Prelude ++ [.str "Assets:A", .str "close"]

/-- Open an account, then `close-lot` its default (empty-named) lot: the
empty lot name is passed as the quoted string `""`. -/
def c2Prog : List Token :=
  [.str "2000", .str "1", .str "1", .str "date",
   .str "Assets:A", .str "open",
   .str "Assets:A", .quoted "", .str "close-lot"]

/-- Every account of the Context still holds its default-lot entry. -/
def defaultLotInvariant (ctx : Context) : Prop :=
  ∀ p ∈ ctx.accounts, (mapLookup (Prod.snd p).lots "").isSome = true

/-- The stack machine's structural invariant: the silencing depth never
exceeds the marker-stack depth (silencing records the depth at which it was
entered, and closing that scope clears it). -/
def PInv (st : PState) : Prop := st.silenced ≤ st.markerStack.length

/-- The spec's silencing scenario, as tokens: `(silence fail)`. -/
def silenceProg : List Token := [.openParen, .str "silence", .str "fail", .closeParen]

/-- How many times the target appears in the global tag index entry for this
tag (0 when the entry is absent). -/
def tagIndexCount (ctx : Context) (tg : String) (tgt : TagTarget) : Nat :=
  ((mapLookup ctx.tags tg).getD []).count tgt

/-- How many memberships of this tag the named account's tag set holds. -/
def accountTagCount (ctx : Context) (an tg : String) : Nat :=
  match mapLookup ctx.accounts an with
  | some a => a.tags.count tg
  | none => 0

/-- How many memberships of this tag the named commodity's tag set holds. -/
def commodityTagCount (ctx : Context) (cn tg : String) : Nat :=
  match mapLookup ctx.commodities cn with
  | some c => c.tags.count tg
  | none => 0

/-- A concrete account whose default lot holds 5 USD and whose only
non-default lot has a zero balance. -/
def c1WitnessAccount : Account :=
  { name := "Assets:W", creationDate := ⟨2000, 1, 1⟩, closingDate := zeroDate
    commodities := []
    lots := [("", [("USD", ⟨"", ⟨2000, 1, 1⟩, ⟨5, "USD"⟩, none⟩)]),
             ("zeroed", [("USD", ⟨"zeroed", ⟨2000, 1, 1⟩, ⟨0, "USD"⟩, none⟩)])]
    tags := [], notes := [] }

/-- A Context holding just `c1WitnessAccount`. -/
def c1WitnessCtx : Context := ⟨⟨2000, 1, 1⟩, [("Assets:W", c1WitnessAccount)], [], []⟩

/-- The named account exists in the Context. -/
def accountExists (ctx : Context) (an : String) : Prop :=
  (mapLookup ctx.accounts an).isSome = true

/-- The named account exists and holds the named lot. -/
def accountHasLot (ctx : Context) (an ln : String) : Prop :=
  ∃ a, mapLookup ctx.accounts an = some a ∧ (mapLookup a.lots ln).isSome = true

/-- `ExecuteTransfer` succeeds on this transfer in this Context: its account
pointer resolves, and its target lot exists or it is flagged for creation. -/
def transferApplicable (ctx : Context) (t : Transfer) : Prop :=
  accountExists ctx t.account ∧ (accountHasLot ctx t.account t.lotName ∨ t.createLot = true)

/-- Total of the exchange-aware quantities, as `checkTransfers` accumulates
it. -/
def sumTransfers (ts : List Transfer) : ℚ :=
  (ts.map (fun t => t.transferQuantity.amount)).sum

/-- The dollar commodity used by the concrete transaction scenarios. -/
def cUSD : Commodity := NewCommodity "USD" "Dollar" ⟨2000, 1, 1⟩

/-- Two fresh accounts plus USD: the Context the concrete transaction
scenarios start from. -/
def c10Ctx : Context :=
  ⟨⟨2000, 1, 1⟩,
   [("Assets:A", NewAccount "Assets:A" ⟨2000, 1, 1⟩),
    ("Equity", NewAccount "Equity" ⟨2000, 1, 1⟩)],
   [("USD", cUSD)], []⟩

/-- +5 USD into the default lot of `Assets:A`. -/
def c10t1 : Transfer := ⟨"Assets:A", "", false, ⟨5, "USD"⟩, none, ""⟩

/-- −5 USD into the nonexistent lot `X` of `Equity`, not flagged for
creation: `ExecuteTransfer` fails on it. -/
def c10bad : Transfer := ⟨"Equity", "X", false, ⟨-5, "USD"⟩, none, ""⟩

/-- −5 USD into the default lot of `Equity` (applicable, balancing
`c10t1`). -/
def c3t2 : Transfer := ⟨"Equity", "", false, ⟨-5, "USD"⟩, none, ""⟩

/-- `c10Ctx` after `c10t1` has been applied: the default lot of `Assets:A`
now holds 5 USD. -/
def c10Ctx1 : Context :=
  ⟨⟨2000, 1, 1⟩,
   [("Assets:A",
     { NewAccount "Assets:A" ⟨2000, 1, 1⟩ with
       lots := [("", [("USD", ⟨"", ⟨2000, 1, 1⟩, ⟨5, "USD"⟩, none⟩)])] }),
    ("Equity", NewAccount "Equity" ⟨2000, 1, 1⟩)],
   [("USD", cUSD)], []⟩

/-! ## Helper lemmas -/

theorem mapLookup_mapInsert_self {α : Type} (l : List (String × α)) (k : String) (v : α) :
    mapLookup (mapInsert l k v) k = some v := by
  induction l with
  | nil => simp [mapInsert, mapLookup]
  | cons hd tl ih =>
    obtain ⟨k0, v0⟩ := hd
    by_cases h : k0 = k
    · simp [mapInsert, mapLookup, h]
    · simp [mapInsert, mapLookup, h, ih]

theorem mapLookup_mapInsert_ne {α : Type} (l : List (String × α)) (k k' : String) (v : α)
    (h : k ≠ k') : mapLookup (mapInsert l k v) k' = mapLookup l k' := by
  induction l with
  | nil => simp [mapInsert, mapLookup, h]
  | cons hd tl ih =>
    obtain ⟨k0, v0⟩ := hd
    by_cases h0 : k0 = k
    · subst h0
      simp [mapInsert, mapLookup, h]
    · simp [mapInsert, mapLookup, h0, ih]

/-- Writing back the value already bound to a key leaves the map unchanged. -/
theorem mapInsert_self_of_lookup {α : Type} (l : List (String × α)) (k : String) (v : α)
    (h : mapLookup l k = some v) : mapInsert l k v = l := by
  induction l with
  | nil => simp [mapLookup] at h
  | cons hd tl ih =>
    obtain ⟨k0, v0⟩ := hd
    by_cases h0 : k0 = k
    · subst h0
      simp [mapLookup] at h
      simp [mapInsert, h]
    · simp [mapLookup, h0] at h
      simp [mapInsert, h0, ih h]

theorem mapLookup_mem {α : Type} {l : List (String × α)} {k : String} {v : α}
    (h : mapLookup l k = some v) : (k, v) ∈ l := by
  induction l with
  | nil => simp [mapLookup] at h
  | cons hd tl ih =>
    obtain ⟨k0, v0⟩ := hd
    by_cases h0 : k0 = k
    · subst h0
      simp [mapLookup] at h
      simp [h]
    · simp [mapLookup, h0] at h
      simp [ih h]

theorem mem_mapInsert {α : Type} {l : List (String × α)} {k : String} {v : α}
    {p : String × α} (h : p ∈ mapInsert l k v) : p ∈ l ∨ p = (k, v) := by
  induction l with
  | nil => simp [mapInsert] at h; simp [h]
  | cons hd tl ih =>
    obtain ⟨k0, v0⟩ := hd
    by_cases h0 : k0 = k
    · subst h0
      simp [mapInsert] at h
      rcases h with h | h
      · right; simp [h]
      · left; simp [h]
    · simp [mapInsert, h0] at h
      rcases h with h | h
      · left; simp [h]
      · rcases ih h with h' | h'
        · left; simp [h']
        · right; exact h'

/-! ## Claim C4: the `comment` function -/

/-- C4 counterexample: `comment` with two visible text operands succeeds
(popping only the top one), whereas the claim says it must fail when given
more than one visible operand. -/
theorem claim_C4_counterexample :
    commentFn [Value.text "a", Value.text "b"] NewContext
      = .ok ([Value.text "a"], NewContext) := rfl

/-- C4 (amended): `comment` fails with zero operands and with a non-text top
operand; with a text top operand it succeeds and discards only that operand,
regardless of how many further operands sit below it (leftover operands
surface later as scope-close or `Finish` errors, not as `comment` errors). -/
theorem claim_C4_theorem (view : List Value) (ctx : Context) :
    (view = [] → commentFn view ctx = .error "comment: no operands given")
    ∧ (∀ rest s, view = rest ++ [Value.text s] → commentFn view ctx = .ok (rest, ctx))
    ∧ (∀ rest t, view = rest ++ [Value.transfer t] → exceptOk (commentFn view ctx) = false) := by
  refine ⟨?_, ?_, ?_⟩
  · intro h
    subst h
    rfl
  · intro rest s h
    subst h
    simp [commentFn, List.reverse_append]
  · intro rest t h
    subst h
    simp [commentFn, List.reverse_append, exceptOk]

/-- C4 witness: the amended statement at a concrete input. -/
theorem claim_C4_witness :
    commentFn [Value.text "note"] NewContext = .ok ([], NewContext) :=
  (claim_C4_theorem [Value.text "note"] NewContext).2.1 [] "note" rfl

/-! ## Per-function Context-effect lemmas

Used by the invariant sweeps (the clock is only written by `date`, the
default-lot entry is only removed by `close-lot`). -/

theorem assertFn_ctx_eq {view ctx v' ctx'} (h : assertFn view ctx = .ok (v', ctx')) :
    ctx' = ctx := by
  unfold assertFn at h
  repeat' split at h
  all_goals
    first
      | (simp only [Except.ok.injEq, Prod.mk.injEq] at h; exact h.2.symm)
      | simp at h

theorem assertLotFn_ctx_eq {view ctx v' ctx'} (h : assertLotFn view ctx = .ok (v', ctx')) :
    ctx' = ctx := by
  unfold assertLotFn at h
  repeat' split at h
  all_goals
    first
      | (simp only [Except.ok.injEq, Prod.mk.injEq] at h; exact h.2.symm)
      | simp at h

theorem assertLotsSumFn_ctx_eq {view ctx v' ctx'}
    (h : assertLotsSumFn view ctx = .ok (v', ctx')) : ctx' = ctx := by
  unfold assertLotsSumFn at h
  repeat' split at h
  all_goals
    first
      | (simp only [Except.ok.injEq, Prod.mk.injEq] at h; exact h.2.symm)
      | simp at h

theorem commentFn_ctx_eq {view ctx v' ctx'} (h : commentFn view ctx = .ok (v', ctx')) :
    ctx' = ctx := by
  unfold commentFn at h
  repeat' split at h
  all_goals
    first
      | (simp only [Except.ok.injEq, Prod.mk.injEq] at h; exact h.2.symm)
      | simp at h

theorem lotFn_ctx_eq {view ctx v' ctx'} (h : lotFn view ctx = .ok (v', ctx')) :
    ctx' = ctx := by
  unfold lotFn at h
  repeat' split at h
  all_goals
    first
      | (simp only [Except.ok.injEq, Prod.mk.injEq] at h; exact h.2.symm)
      | simp at h

theorem createLotFn_ctx_eq {view ctx v' ctx'} (h : createLotFn view ctx = .ok (v', ctx')) :
    ctx' = ctx := by
  unfold createLotFn at h
  repeat' split at h
  all_goals
    first
      | (simp only [Except.ok.injEq, Prod.mk.injEq] at h; exact h.2.symm)
      | simp at h

theorem setCommentFn_ctx_eq {view ctx v' ctx'} (h : setCommentFn view ctx = .ok (v', ctx')) :
    ctx' = ctx := by
  unfold setCommentFn at h
  repeat' split at h
  all_goals
    first
      | (simp only [Except.ok.injEq, Prod.mk.injEq] at h; exact h.2.symm)
      | simp at h

theorem xferFn_ctx_eq {view ctx v' ctx'} (h : xferFn view ctx = .ok (v', ctx')) :
    ctx' = ctx := by
  unfold xferFn at h
  repeat' split at h
  all_goals
    first
      | (simp only [Except.ok.injEq, Prod.mk.injEq] at h; exact h.2.symm)
      | simp at h

theorem xferExchFn_ctx_eq {view ctx v' ctx'} (h : xferExchFn view ctx = .ok (v', ctx')) :
    ctx' = ctx := by
  unfold xferExchFn at h
  repeat' split at h
  all_goals
    first
      | (simp only [Except.ok.injEq, Prod.mk.injEq] at h; exact h.2.symm)
      | simp at h

theorem Account.AddTag_lots (a : Account) (t : String) : (a.AddTag t).lots = a.lots := by
  unfold Account.AddTag
  split <;> rfl

theorem Account.AddTag_closingDate (a : Account) (t : String) :
    (a.AddTag t).closingDate = a.closingDate := by
  unfold Account.AddTag
  split <;> rfl

theorem Account.RemoveTag_lots (a : Account) (t : String) : (a.RemoveTag t).lots = a.lots := rfl

theorem addAllowList_lots {ctx : Context} :
    ∀ (cs : List Value) (a a' : Account), addAllowList ctx a cs = .ok a' → a'.lots = a.lots := by
  intro cs
  induction cs with
  | nil =>
    intro a a' h
    simp only [addAllowList, Except.ok.injEq] at h
    rw [← h]
  | cons v rest ih =>
    intro a a' h
    simp only [addAllowList] at h
    by_cases hc : (mapLookup ctx.commodities v.textOf).isSome = true
    · rw [if_pos hc] at h
      exact (ih _ _ h).trans rfl
    · rw [if_neg hc] at h
      simp at h

theorem tagAccountLoop_spec :
    ∀ (ts : List Value) (ctx : Context) (an : String) (a : Account),
      (tagAccountLoop ctx an a ts).1.date = ctx.date
      ∧ (tagAccountLoop ctx an a ts).1.accounts = ctx.accounts
      ∧ ((tagAccountLoop ctx an a ts).2).lots = a.lots
      ∧ ((tagAccountLoop ctx an a ts).2).closingDate = a.closingDate := by
  intro ts
  induction ts with
  | nil => intro ctx an a; exact ⟨rfl, rfl, rfl, rfl⟩
  | cons v rest ih =>
    intro ctx an a
    have h := ih { ctx with tags := tagIndexAdd ctx.tags v.textOf (.account an) } an
      (a.AddTag v.textOf)
    refine ⟨h.1, h.2.1, ?_, ?_⟩
    · rw [show (tagAccountLoop ctx an a (v :: rest)).2 =
          (tagAccountLoop { ctx with tags := tagIndexAdd ctx.tags v.textOf (.account an) } an
            (a.AddTag v.textOf) rest).2 from rfl]
      rw [h.2.2.1, Account.AddTag_lots]
    · rw [show (tagAccountLoop ctx an a (v :: rest)).2 =
          (tagAccountLoop { ctx with tags := tagIndexAdd ctx.tags v.textOf (.account an) } an
            (a.AddTag v.textOf) rest).2 from rfl]
      rw [h.2.2.2, Account.AddTag_closingDate]

theorem tagCommodityLoop_spec :
    ∀ (ts : List Value) (ctx : Context) (cn : String) (c : Commodity),
      (tagCommodityLoop ctx cn c ts).1.date = ctx.date
      ∧ (tagCommodityLoop ctx cn c ts).1.accounts = ctx.accounts := by
  intro ts
  induction ts with
  | nil => intro ctx cn c; exact ⟨rfl, rfl⟩
  | cons v rest ih =>
    intro ctx cn c
    exact ih { ctx with tags := tagIndexAdd ctx.tags v.textOf (.commodity cn) } cn
      (c.AddTag v.textOf)

theorem untagAccountLoop_spec :
    ∀ (ts : List Value) (ctx : Context) (an : String) (a : Account),
      (untagAccountLoop ctx an a ts).1.date = ctx.date
      ∧ (untagAccountLoop ctx an a ts).1.accounts = ctx.accounts
      ∧ ((untagAccountLoop ctx an a ts).2).lots = a.lots := by
  intro ts
  induction ts with
  | nil => intro ctx an a; exact ⟨rfl, rfl, rfl⟩
  | cons v rest ih =>
    intro ctx an a
    have h := ih { ctx with tags := untagIndexRemove ctx.tags v.textOf (.account an) } an
      (a.RemoveTag v.textOf)
    exact ⟨h.1, h.2.1, by rw [show (untagAccountLoop ctx an a (v :: rest)).2 =
      (untagAccountLoop { ctx with tags := untagIndexRemove ctx.tags v.textOf (.account an) } an
        (a.RemoveTag v.textOf) rest).2 from rfl, h.2.2, Account.RemoveTag_lots]⟩

/-- Inserting an account whose lot map still holds the default entry
preserves the default-lot invariant. -/
theorem defaultLotInvariant_mapInsert {ctx : Context} {an : String} {a : Account}
    (hInv : defaultLotInvariant ctx) (ha : (mapLookup a.lots "").isSome = true) :
    ∀ p ∈ mapInsert ctx.accounts an a, (mapLookup (Prod.snd p).lots "").isSome = true := by
  intro p hp
  rcases mem_mapInsert hp with hmem | hpe
  · exact hInv p hmem
  · rw [hpe]
    exact ha

/-- `mapInsert` into a lot map never loses the default entry. -/
theorem lots_mapInsert_default_isSome {lots : List (String × List (String × Lot))}
    {ln : String} {v : List (String × Lot)}
    (hsome : (mapLookup lots "").isSome = true) :
    (mapLookup (mapInsert lots ln v) "").isSome = true := by
  by_cases he : ln = ""
  · subst he
    rw [mapLookup_mapInsert_self]
    rfl
  · rw [mapLookup_mapInsert_ne _ _ _ _ he]
    exact hsome

theorem executeTransfer_spec {t : Transfer} {ctx ctx' : Context}
    (h : executeTransfer t ctx = .ok ctx') :
    ctx'.date = ctx.date ∧ (defaultLotInvariant ctx → defaultLotInvariant ctx') := by
  unfold executeTransfer at h
  repeat' split at h
  all_goals try simp at h
  all_goals subst h
  all_goals refine ⟨rfl, fun hInv => defaultLotInvariant_mapInsert hInv ?_⟩
  all_goals exact lots_mapInsert_default_isSome (hInv _ (mapLookup_mem (by assumption)))

theorem executeTransfers_spec :
    ∀ (ts : List Transfer) (ctx : Context),
      (executeTransfers ts ctx).1.date = ctx.date
      ∧ (defaultLotInvariant ctx → defaultLotInvariant (executeTransfers ts ctx).1) := by
  intro ts
  induction ts with
  | nil => intro ctx; exact ⟨rfl, fun hInv => hInv⟩
  | cons t rest ih =>
    intro ctx
    unfold executeTransfers
    cases he : executeTransfer t ctx with
    | ok ctx1 =>
      have hs := executeTransfer_spec he
      have hr := ih ctx1
      exact ⟨hr.1.trans hs.1, fun hInv => hr.2 (hs.2 hInv)⟩
    | error e => exact ⟨rfl, fun hInv => hInv⟩

theorem xactApply_spec (ts : List Transfer) (ctx : Context) :
    (xactApply ts ctx).1.date = ctx.date
    ∧ (defaultLotInvariant ctx → defaultLotInvariant (xactApply ts ctx).1) := by
  unfold xactApply
  cases hc : checkTransfers ts with
  | some e => exact ⟨rfl, fun hInv => hInv⟩
  | none => exact executeTransfers_spec ts ctx

theorem addNotesFn_spec {view ctx v' ctx'} (h : addNotesFn view ctx = .ok (v', ctx')) :
    ctx'.date = ctx.date ∧ (defaultLotInvariant ctx → defaultLotInvariant ctx') := by
  simp only [addNotesFn] at h
  repeat' split at h
  all_goals try simp at h
  rename_i values v0 pairs heqvals x a hlook hcl
  obtain ⟨h1, h2⟩ := h
  subst h2
  refine ⟨rfl, fun hInv => ?_⟩
  refine defaultLotInvariant_mapInsert hInv ?_
  exact hInv _ (mapLookup_mem hlook)

theorem closeFn_spec {view ctx v' ctx'} (h : closeFn view ctx = .ok (v', ctx')) :
    ctx'.date = ctx.date ∧ (defaultLotInvariant ctx → defaultLotInvariant ctx') := by
  simp only [closeFn] at h
  repeat' split at h
  all_goals try simp at h
  rename_i x acct hlook hcl hall
  obtain ⟨h1, h2⟩ := h
  subst h2
  refine ⟨rfl, fun hInv => ?_⟩
  refine defaultLotInvariant_mapInsert hInv ?_
  exact hInv _ (mapLookup_mem hlook)

theorem closeLotFn_date {view ctx v' ctx'} (h : closeLotFn view ctx = .ok (v', ctx')) :
    ctx'.date = ctx.date := by
  simp only [closeLotFn] at h
  repeat' split at h
  all_goals try simp at h
  obtain ⟨h1, h2⟩ := h
  subst h2
  rfl

theorem commodityFn_spec {view ctx v' ctx'} (h : commodityFn view ctx = .ok (v', ctx')) :
    ctx'.date = ctx.date ∧ ctx'.accounts = ctx.accounts := by
  simp only [commodityFn] at h
  repeat' split at h
  all_goals try simp at h
  obtain ⟨h1, h2⟩ := h
  subst h2
  exact ⟨rfl, rfl⟩

theorem dateFn_accounts {view ctx v' ctx'} (h : dateFn view ctx = .ok (v', ctx')) :
    ctx'.accounts = ctx.accounts := by
  simp only [dateFn] at h
  repeat' split at h
  all_goals try simp at h
  obtain ⟨h1, h2⟩ := h
  subst h2
  rfl

theorem openFn_spec {view ctx v' ctx'} (h : openFn view ctx = .ok (v', ctx')) :
    ctx'.date = ctx.date ∧ (defaultLotInvariant ctx → defaultLotInvariant ctx') := by
  simp only [openFn] at h
  repeat' split at h
  all_goals try simp at h
  rename_i acct hallow
  obtain ⟨h1, h2⟩ := h
  subst h2
  refine ⟨rfl, fun hInv => ?_⟩
  refine defaultLotInvariant_mapInsert hInv ?_
  rw [addAllowList_lots _ _ _ hallow]
  rfl

theorem tagFn_spec {view ctx v' ctx'} (h : tagFn view ctx = .ok (v', ctx')) :
    ctx'.date = ctx.date ∧ (defaultLotInvariant ctx → defaultLotInvariant ctx') := by
  simp only [tagFn] at h
  repeat' split at h
  all_goals try simp at h
  rename_i values v0 tags heqvals x acct hlook hcl
  obtain ⟨h1, h2⟩ := h
  subst h2
  have hs := tagAccountLoop_spec tags ctx v0.textOf acct
  refine ⟨hs.1, fun hInv => ?_⟩
  intro p hp
  simp only at hp
  rw [hs.2.1] at hp
  rcases mem_mapInsert hp with hmem | hpe
  · exact hInv p hmem
  · rw [hpe]
    dsimp only
    rw [hs.2.2.1]
    exact hInv _ (mapLookup_mem hlook)

theorem tagCommodityFn_spec {view ctx v' ctx'} (h : tagCommodityFn view ctx = .ok (v', ctx')) :
    ctx'.date = ctx.date ∧ ctx'.accounts = ctx.accounts := by
  simp only [tagCommodityFn] at h
  repeat' split at h
  all_goals try simp at h
  rename_i values v0 tags heqvals x c hlook
  obtain ⟨h1, h2⟩ := h
  subst h2
  have hs := tagCommodityLoop_spec tags ctx v0.textOf c
  exact ⟨hs.1, hs.2⟩

theorem untagFn_spec {view ctx v' ctx'} (h : untagFn view ctx = .ok (v', ctx')) :
    ctx'.date = ctx.date ∧ (defaultLotInvariant ctx → defaultLotInvariant ctx') := by
  simp only [untagFn] at h
  repeat' split at h
  all_goals try simp at h
  rename_i values v0 tags heqvals x acct hlook hcl
  obtain ⟨h1, h2⟩ := h
  subst h2
  have hs := untagAccountLoop_spec tags ctx v0.textOf acct
  refine ⟨hs.1, fun hInv => ?_⟩
  intro p hp
  simp only at hp
  rw [hs.2.1] at hp
  rcases mem_mapInsert hp with hmem | hpe
  · exact hInv p hmem
  · rw [hpe]
    dsimp only
    rw [hs.2.2]
    exact hInv _ (mapLookup_mem hlook)

theorem xactFn_spec {view ctx v' ctx'} (h : xactFn view ctx = .ok (v', ctx')) :
    ctx'.date = ctx.date ∧ (defaultLotInvariant ctx → defaultLotInvariant ctx') := by
  simp only [xactFn] at h
  repeat' split at h
  all_goals try simp at h
  rename_i x1 parsed restName entityName ts heqparse xp ctx1 happly
  obtain ⟨h1, h2⟩ := h
  subst h2
  have hs := xactApply_spec ts ctx
  rw [happly] at hs
  exact hs

/-! ## Claim C1: the `close` function -/

unseal Rat.add in
/-- C1 counterexample: running the spec's own scenario — `Assets:A open`,
`Assets:A 5 USD xfer`, `Equity -5 USD xfer`, `xact` — leaves 5 USD in the
default lot of `Assets:A`, yet `Assets:A close` SUCCEEDS (the account ends
up closed): `CloseFunction` never inspects the default lot's balance, so the
claimed failure does not occur. -/
theorem claim_C1_counterexample :
    (ledgerOutcome c1Prelude).map (fun c => lotBalance c "Assets:A" "" "USD") = some 5
    ∧ (ledgerOutcome c1Close).map (fun c => accountClosed c "Assets:A") = some true := by
  decide

/-- C1 (amended): `close` succeeds exactly when the account exists, is not
already closed, and every NON-default lot has a zero balance in every
commodity it holds.  Non-default lots need not have been removed (zero
balances suffice), and the default lot's balance is never checked; on
success the closing date becomes the current date. -/
theorem claim_C1_theorem (rest : List Value) (an : String) (ctx : Context) :
    (mapLookup ctx.accounts an = none →
      exceptOk (closeFn (rest ++ [Value.text an]) ctx) = false)
    ∧ (∀ acct, mapLookup ctx.accounts an = some acct →
        (acct.IsClosed ctx.date = true →
          exceptOk (closeFn (rest ++ [Value.text an]) ctx) = false)
        ∧ (acct.IsClosed ctx.date = false →
          (closeFn (rest ++ [Value.text an]) ctx =
              .ok (rest, { ctx with
                accounts := mapInsert ctx.accounts an { acct with closingDate := ctx.date } })
            ↔ ∀ p ∈ acct.lots, p.1 ≠ "" → ∀ q ∈ p.2, (q.2 : Lot).balance.amount = 0))) := by
  have hrev : (rest ++ [Value.text an]).reverse = Value.text an :: rest.reverse := by simp
  refine ⟨?_, ?_⟩
  · intro h
    simp [closeFn, hrev, h, exceptOk]
  · intro acct h
    refine ⟨?_, ?_⟩
    · intro hcl
      simp [closeFn, hrev, h, hcl, exceptOk]
    · intro hop
      by_cases hall :
          acct.lots.all (fun p => p.1 == "" || p.2.all (fun q => q.2.balance.amount == 0))
      · simp only [closeFn, hrev, h, hop, hall, Bool.false_eq_true, if_false, if_true,
          List.reverse_reverse]
        simp only [List.all_eq_true, Bool.or_eq_true, beq_iff_eq] at hall
        constructor
        · intro _ p hp hne q hq
          rcases hall p hp with h1 | h1
          · exact absurd h1 hne
          · exact h1 q hq
        · intro _
          trivial
      · simp only [closeFn, hrev, h, hop, hall, Bool.false_eq_true, if_false, if_true]
        constructor
        · intro hc
          exact absurd hc (by simp)
        · intro hforall
          exfalso
          apply hall
          simp only [List.all_eq_true, Bool.or_eq_true, beq_iff_eq]
          intro p hp
          by_cases hne : p.1 = ""
          · exact Or.inl hne
          · exact Or.inr (fun q hq => hforall p hp hne q hq)

/-- C1 witness: the amended characterization applied to a concrete Context
in which the only non-default lot has a zero balance while the default lot
holds 5 USD — `close` succeeds. -/
theorem claim_C1_witness :
    closeFn [Value.text "Assets:W"] c1WitnessCtx =
      .ok ([],
        { c1WitnessCtx with
          accounts := mapInsert c1WitnessCtx.accounts "Assets:W"
            { c1WitnessAccount with closingDate := c1WitnessCtx.date } }) := by
  have h := ((claim_C1_theorem [] "Assets:W" c1WitnessCtx).2 c1WitnessAccount
      (by decide)).2 (by decide)
  exact h.mpr (by decide)

/-! ## Claim C2: the default lot -/

/-- A Context whose accounts all satisfy the invariant stays that way when
only the accounts map is untouched. -/
theorem defaultLotInvariant_of_accounts_eq {ctx ctx' : Context}
    (h : ctx'.accounts = ctx.accounts) (hInv : defaultLotInvariant ctx) :
    defaultLotInvariant ctx' := by
  intro p hp
  rw [h] at hp
  exact hInv p hp

/-- C2 counterexample: `close-lot` applied to the empty lot name deletes the
default lot, so the default-lot entry does NOT exist in every reachable
state: after `Assets:A open` and `Assets:A "" close-lot` (both succeed), the
account's lot map no longer contains the empty key. -/
theorem claim_C2_counterexample :
    (ledgerOutcome c2Prog).map
        (fun c => (mapLookup c.accounts "Assets:A").map
          (fun a : Account => (mapLookup a.lots "").isSome))
      = some (some false) := by decide

/-- C2 (amended): the default lot exists from account creation, and every
core operation except `close-lot` preserves it in every account; `close-lot`
with the empty lot name is the one operation that removes it (exhibited by
the counterexample). -/
theorem claim_C2_theorem :
    (∀ (name : String) (d : Date), mapLookup (NewAccount name d).lots "" = some [])
    ∧ (∀ f ∈ coreFunctions, Prod.fst f ≠ "close-lot" →
        ∀ (view : List Value) (ctx : Context) (v' : List Value) (ctx' : Context),
          (Prod.snd f) view ctx = .ok (v', ctx') →
          defaultLotInvariant ctx → defaultLotInvariant ctx') := by
  refine ⟨fun name d => rfl, ?_⟩
  intro f hf hne view ctx v' ctx' h hInv
  simp only [coreFunctions, List.mem_cons, List.not_mem_nil, or_false] at hf
  rcases hf with hf|hf|hf|hf|hf|hf|hf|hf|hf|hf|hf|hf|hf|hf|hf|hf|hf|hf|hf
  all_goals subst hf
  · exact (addNotesFn_spec h).2 hInv
  · rw [assertFn_ctx_eq h]; exact hInv
  · rw [assertLotFn_ctx_eq h]; exact hInv
  · rw [assertLotsSumFn_ctx_eq h]; exact hInv
  · exact (closeFn_spec h).2 hInv
  · exact absurd rfl hne
  · rw [commentFn_ctx_eq h]; exact hInv
  · exact defaultLotInvariant_of_accounts_eq (commodityFn_spec h).2 hInv
  · rw [createLotFn_ctx_eq h]; exact hInv
  · exact defaultLotInvariant_of_accounts_eq (dateFn_accounts h) hInv
  · rw [lotFn_ctx_eq h]; exact hInv
  · exact (openFn_spec h).2 hInv
  · rw [setCommentFn_ctx_eq h]; exact hInv
  · exact (tagFn_spec h).2 hInv
  · exact defaultLotInvariant_of_accounts_eq (tagCommodityFn_spec h).2 hInv
  · exact (untagFn_spec h).2 hInv
  · exact (xactFn_spec h).2 hInv
  · rw [xferFn_ctx_eq h]; exact hInv
  · rw [xferExchFn_ctx_eq h]; exact hInv

/-- C2 witness: the amended statement at concrete inputs — a fresh account
holds the default lot, and a concrete successful `date` call preserves the
invariant. -/
theorem claim_C2_witness :
    mapLookup (NewAccount "Assets:A" zeroDate).lots "" = some []
    ∧ defaultLotInvariant ⟨⟨2000, 1, 1⟩, [], [], []⟩ :=
  ⟨claim_C2_theorem.1 "Assets:A" zeroDate,
    claim_C2_theorem.2 ("date", dateFn) (by simp [coreFunctions]) (by simp)
      [Value.text "2000", Value.text "1", Value.text "1"] NewContext [] _ (by decide)
      (by intro p hp; simp [NewContext] at hp)⟩

/-! ## Claim C5: monotonicity of the Context clock -/

/-- C5: a `date` call whose (normalized) date lies strictly before the
current clock fails — so the clock, which a failing call never assigns, is
unchanged — and a call specifying an equal-or-later date succeeds and sets
the clock to exactly that date; and no registered function other than `date`
ever changes the clock on a successful call. -/
theorem claim_C5_theorem :
    (∀ (rest : List Value) (y m dy : String) (py pm pdy : Int) (ctx : Context),
      parseInt32 y.toList = some py → parseInt32 m.toList = some pm →
      parseInt32 dy.toList = some pdy →
      ((ctx.date.After ⟨py, pm, pdy⟩ = true →
          exceptOk (dateFn (rest ++ [Value.text y, Value.text m, Value.text dy]) ctx) = false)
        ∧ (ctx.date.After ⟨py, pm, pdy⟩ = false →
          dateFn (rest ++ [Value.text y, Value.text m, Value.text dy]) ctx
            = .ok (rest, { ctx with date := ⟨py, pm, pdy⟩ }))))
    ∧ (∀ f ∈ coreFunctions, Prod.fst f ≠ "date" →
        ∀ (view : List Value) (ctx : Context) (v' : List Value) (ctx' : Context),
          (Prod.snd f) view ctx = .ok (v', ctx') → ctx'.date = ctx.date) := by
  constructor
  · intro rest y m dy py pm pdy ctx hy hm hd
    have hrev : (rest ++ [Value.text y, Value.text m, Value.text dy]).reverse
        = Value.text dy :: Value.text m :: Value.text y :: rest.reverse := by simp
    simp only [String.toList] at hy hm hd
    constructor
    · intro hafter
      simp [dateFn, hrev, hy, hm, hd, hafter, exceptOk]
    · intro hafter
      simp [dateFn, hrev, hy, hm, hd, hafter]
  · intro f hf hne view ctx v' ctx' h
    simp only [coreFunctions, List.mem_cons, List.not_mem_nil, or_false] at hf
    rcases hf with hf|hf|hf|hf|hf|hf|hf|hf|hf|hf|hf|hf|hf|hf|hf|hf|hf|hf|hf
    all_goals subst hf
    · exact (addNotesFn_spec h).1
    · rw [assertFn_ctx_eq h]
    · rw [assertLotFn_ctx_eq h]
    · rw [assertLotsSumFn_ctx_eq h]
    · exact (closeFn_spec h).1
    · exact closeLotFn_date h
    · rw [commentFn_ctx_eq h]
    · exact (commodityFn_spec h).1
    · rw [createLotFn_ctx_eq h]
    · exact absurd rfl hne
    · rw [lotFn_ctx_eq h]
    · exact (openFn_spec h).1
    · rw [setCommentFn_ctx_eq h]
    · exact (tagFn_spec h).1
    · exact (tagCommodityFn_spec h).1
    · exact (untagFn_spec h).1
    · exact (xactFn_spec h).1
    · rw [xferFn_ctx_eq h]
    · rw [xferExchFn_ctx_eq h]

/-- C5 witness: the clock behaviour at concrete inputs — `1999 12 31 date`
fails after the clock reached 2000-01-01, `2000 1 2 date` succeeds and sets
the clock, and a successful `open` leaves the clock untouched. -/
theorem claim_C5_witness :
    (exceptOk (dateFn [Value.text "1999", Value.text "12", Value.text "31"]
        ⟨⟨2000, 1, 1⟩, [], [], []⟩) = false)
    ∧ (dateFn [Value.text "2000", Value.text "1", Value.text "2"] ⟨⟨2000, 1, 1⟩, [], [], []⟩
        = .ok ([], ⟨⟨2000, 1, 2⟩, [], [], []⟩))
    ∧ (⟨⟨2000, 1, 1⟩, [("Assets:A", NewAccount "Assets:A" ⟨2000, 1, 1⟩)], [], []⟩ : Context).date
        = (⟨⟨2000, 1, 1⟩, [], [], []⟩ : Context).date :=
  ⟨((claim_C5_theorem.1 [] "1999" "12" "31" 1999 12 31 ⟨⟨2000, 1, 1⟩, [], [], []⟩
      (by decide) (by decide) (by decide)).1 (by decide)),
   ((claim_C5_theorem.1 [] "2000" "1" "2" 2000 1 2 ⟨⟨2000, 1, 1⟩, [], [], []⟩
      (by decide) (by decide) (by decide)).2 (by decide)),
   claim_C5_theorem.2 ("open", openFn) (by simp [coreFunctions]) (by simp)
      [Value.text "Assets:A"] ⟨⟨2000, 1, 1⟩, [], [], []⟩ [] _ (by decide)⟩

/-! ## Transaction machinery lemmas (claims C3 and C10) -/

theorem checkTransfersLoop_none_iff (first : String) :
    ∀ (rest : List Transfer) (q : Quantity),
      checkTransfersLoop first q rest = none ↔
        ((∀ t ∈ rest, t.transferQuantity.commodity = q.commodity)
          ∧ q.amount + sumTransfers rest = 0) := by
  intro rest
  induction rest with
  | nil =>
    intro q
    simp only [checkTransfersLoop, sumTransfers, List.map_nil, List.sum_nil, add_zero,
      List.not_mem_nil, false_implies, implies_true, true_and]
    split
    · simp_all
    · simp_all
  | cons t ts ih =>
    intro q
    simp only [checkTransfersLoop]
    split
    · rename_i hne
      constructor
      · intro hc
        cases hc
      · intro hc
        exact absurd (hc.1 t (List.mem_cons_self t ts)) hne
    · rename_i heq
      simp only [ne_eq, not_not] at heq
      rw [ih]
      constructor
      · intro ⟨hcomm, hsum⟩
        refine ⟨?_, ?_⟩
        · intro t' ht'
          rcases List.mem_cons.mp ht' with h | h
          · rw [h, heq]
          · exact hcomm t' h
        · rw [sumTransfers, List.map_cons, List.sum_cons, ← add_assoc]
          exact hsum
      · intro ⟨hcomm, hsum⟩
        refine ⟨?_, ?_⟩
        · intro t' ht'
          exact hcomm t' (List.mem_cons_of_mem t ht')
        · rw [sumTransfers, List.map_cons, List.sum_cons, ← add_assoc] at hsum
          exact hsum

/-- `checkTransfers` passes a nonempty list exactly when every transfer uses
the first one's (exchange-aware) commodity and the amounts total zero. -/
theorem checkTransfers_none_iff (t0 : Transfer) (rest : List Transfer) :
    checkTransfers (t0 :: rest) = none ↔
      ((∀ t ∈ t0 :: rest, t.transferQuantity.commodity = t0.transferQuantity.commodity)
        ∧ sumTransfers (t0 :: rest) = 0) := by
  rw [show checkTransfers (t0 :: rest)
      = checkTransfersLoop t0.account t0.transferQuantity rest from rfl,
    checkTransfersLoop_none_iff]
  constructor
  · intro ⟨hcomm, hsum⟩
    refine ⟨?_, ?_⟩
    · intro t ht
      rcases List.mem_cons.mp ht with h | h
      · rw [h]
      · exact hcomm t h
    · rw [sumTransfers, List.map_cons, List.sum_cons]
      exact hsum
  · intro ⟨hcomm, hsum⟩
    refine ⟨?_, ?_⟩
    · intro t ht
      exact hcomm t (List.mem_cons_of_mem t0 ht)
    · rw [sumTransfers, List.map_cons, List.sum_cons] at hsum
      exact hsum

/-- Once a prefix executes cleanly, executing the whole list continues from
the prefix's final Context. -/
theorem executeTransfers_append {l1 : List Transfer} :
    ∀ {l2 : List Transfer} {ctx ctx1 : Context}, executeTransfers l1 ctx = (ctx1, none) →
      executeTransfers (l1 ++ l2) ctx = executeTransfers l2 ctx1 := by
  induction l1 with
  | nil =>
    intro l2 ctx ctx1 h
    simp only [executeTransfers, Prod.mk.injEq] at h
    rw [List.nil_append, h.1]
  | cons t ts ih =>
    intro l2 ctx ctx1 h
    rw [List.cons_append]
    rw [show executeTransfers (t :: ts) ctx =
        (match executeTransfer t ctx with
          | .ok c => executeTransfers ts c
          | .error e => (ctx, some e)) from rfl] at h
    rw [show executeTransfers (t :: (ts ++ l2)) ctx =
        (match executeTransfer t ctx with
          | .ok c => executeTransfers (ts ++ l2) c
          | .error e => (ctx, some e)) from rfl]
    cases he : executeTransfer t ctx with
    | ok cmid =>
      simp only [he] at h ⊢
      exact ih h
    | error e =>
      simp only [he] at h
      simp at h

/-- A transfer whose account resolves but whose target lot is absent and not
flagged for creation makes `ExecuteTransfer` fail. -/
theorem executeTransfer_missing {t : Transfer} {ctx : Context} {acct : Account}
    (hacct : mapLookup ctx.accounts t.account = some acct)
    (hmiss : mapLookup acct.lots t.lotName = none)
    (hflag : t.createLot = false) :
    executeTransfer t ctx =
      .error (if t.lotName = "" then "account " ++ t.account ++ " does not have a default lot"
        else "account " ++ t.account ++ " does not have the lot") := by
  unfold executeTransfer
  simp only [hacct, hmiss, hflag, Bool.false_eq_true, if_false]
  split <;> rfl

/-- Inserting anywhere in a string map preserves the presence of any key. -/
theorem mapLookup_mapInsert_isSome {α : Type} {l : List (String × α)} {k k' : String} {v : α}
    (h : (mapLookup l k').isSome = true) :
    (mapLookup (mapInsert l k v) k').isSome = true := by
  by_cases he : k = k'
  · subst he
    rw [mapLookup_mapInsert_self]
    rfl
  · rw [mapLookup_mapInsert_ne _ _ _ _ he]
    exact h

/-- An applicable transfer executes successfully. -/
theorem executeTransfer_isOk {t : Transfer} {ctx : Context}
    (happ : transferApplicable ctx t) : ∃ ctx', executeTransfer t ctx = .ok ctx' := by
  obtain ⟨hex, hlot⟩ := happ
  obtain ⟨acct, hacct⟩ := Option.isSome_iff_exists.mp hex
  unfold executeTransfer
  simp only [hacct]
  split
  · split
    · exact ⟨_, rfl⟩
    · exfalso
      rcases hlot with ⟨a, ha, hl⟩ | hcr
      · rw [hacct] at ha
        cases ha
        have hml : mapLookup acct.lots t.lotName = none := by assumption
        rw [hml] at hl
        simp at hl
      · rename_i hncr
        exact absurd hcr hncr
  · split
    · exact ⟨_, rfl⟩
    · exact ⟨_, rfl⟩

/-- Updating one account in place, in a way that can only add lots, keeps
every transfer applicable. -/
theorem transferApplicable_insert {ctx ctx2 : Context} {an : String} {acct a' : Account}
    {t' : Transfer}
    (hacc2 : ctx2.accounts = mapInsert ctx.accounts an a')
    (hacct : mapLookup ctx.accounts an = some acct)
    (hlots : ∀ ln, (mapLookup acct.lots ln).isSome = true → (mapLookup a'.lots ln).isSome = true)
    (h' : transferApplicable ctx t') : transferApplicable ctx2 t' := by
  obtain ⟨hex, hlot⟩ := h'
  refine ⟨?_, ?_⟩
  · show (mapLookup ctx2.accounts t'.account).isSome = true
    rw [hacc2]
    exact mapLookup_mapInsert_isSome hex
  · rcases hlot with ⟨a, ha, hl⟩ | hcr
    · left
      by_cases he : an = t'.account
      · subst he
        rw [hacct] at ha
        cases ha
        exact ⟨a', by rw [hacc2]; exact mapLookup_mapInsert_self _ _ _, hlots _ hl⟩
      · exact ⟨a, by rw [hacc2, mapLookup_mapInsert_ne _ _ _ _ he]; exact ha, hl⟩
    · exact Or.inr hcr

/-- A successful `ExecuteTransfer` never destroys another transfer's
applicability: accounts are only updated in place and lot maps only grow. -/
theorem executeTransfer_preserves_applicable {t : Transfer} {ctx ctx' : Context}
    (h : executeTransfer t ctx = .ok ctx') (t' : Transfer)
    (h' : transferApplicable ctx t') : transferApplicable ctx' t' := by
  unfold executeTransfer at h
  repeat' split at h
  all_goals try simp at h
  all_goals subst h
  all_goals apply transferApplicable_insert
  all_goals
    first
      | rfl
      | assumption
      | exact fun ln hln => mapLookup_mapInsert_isSome hln

/-- When every transfer in the list is applicable up front, `Execute`
succeeds, and applicability of any further transfer survives the whole
run. -/
theorem executeTransfers_ok_strong :
    ∀ (ts : List Transfer) (ctx : Context), (∀ t ∈ ts, transferApplicable ctx t) →
      (executeTransfers ts ctx).2 = none
      ∧ ∀ t', transferApplicable ctx t' →
          transferApplicable (executeTransfers ts ctx).1 t' := by
  intro ts
  induction ts with
  | nil => intro ctx _; exact ⟨rfl, fun _ h => h⟩
  | cons t rest ih =>
    intro ctx hall
    obtain ⟨ctx1, he⟩ := executeTransfer_isOk (hall t (List.mem_cons_self t rest))
    rw [show executeTransfers (t :: rest) ctx =
        (match executeTransfer t ctx with
          | .ok c => executeTransfers rest c
          | .error e => (ctx, some e)) from rfl]
    simp only [he]
    have hall1 : ∀ t' ∈ rest, transferApplicable ctx1 t' := fun t' ht' =>
      executeTransfer_preserves_applicable he t' (hall t' (List.mem_cons_of_mem t ht'))
    obtain ⟨h1, h2⟩ := ih ctx1 hall1
    exact ⟨h1, fun t' h' => h2 t' (executeTransfer_preserves_applicable he t' h')⟩

/-- A successful `ExecuteTransfer` changes its own target's balance by
exactly the transfer's signed quantity (absent levels count as zero). -/
theorem executeTransfer_balance {t : Transfer} {ctx ctx' : Context}
    (h : executeTransfer t ctx = .ok ctx') :
    lotBalance ctx' t.account t.lotName t.quantity.commodity
      = lotBalance ctx t.account t.lotName t.quantity.commodity + t.quantity.amount := by
  unfold executeTransfer at h
  repeat' split at h
  all_goals try simp at h
  all_goals subst h
  · rename_i xa acct hacct xl hml hcr
    simp [lotBalance, hacct, hml, mapLookup_mapInsert_self, mapLookup, Transfer.mkLot]
  · rename_i xa acct hacct xl ctol hml xc l hcl
    simp [lotBalance, hacct, hml, hcl, mapLookup_mapInsert_self, mapLookup, Transfer.mkLot]
  · rename_i xa acct hacct xl ctol hml xc hcl
    simp [lotBalance, hacct, hml, hcl, mapLookup_mapInsert_self, mapLookup, Transfer.mkLot]

/-- Executing one more transfer after a clean prefix continues from the
prefix's Context. -/
theorem executeTransfers_take_succ {ts : List Transfer} {ctx : Context} (i : Nat)
    (hi : i < ts.length)
    (hpre : (executeTransfers (ts.take i) ctx).2 = none) :
    executeTransfers (ts.take (i + 1)) ctx
      = executeTransfers [ts.get ⟨i, hi⟩] (executeTransfers (ts.take i) ctx).1 := by
  have htake : ts.take (i + 1) = ts.take i ++ [ts.get ⟨i, hi⟩] := by
    rw [List.take_succ]
    congr 1
    rw [List.getElem?_eq_getElem hi]
    rfl
  rw [htake, executeTransfers_append (Prod.ext rfl hpre)]

/-! ## Claim C10: failed `xact` leaves earlier transfers applied -/

/-- C10: when the balance validation passes but a transfer partway through
the list cannot be applied (its target lot is absent and not flagged for
creation), `xact` returns an error while the Context it leaves behind is
exactly the one produced by the earlier transfers — application is
sequential with no rollback. -/
theorem claim_C10_theorem (pre post : List Transfer) (bad : Transfer) (ctx ctx1 : Context)
    (acct : Account)
    (hcheck : checkTransfers (pre ++ bad :: post) = none)
    (hpre : executeTransfers pre ctx = (ctx1, none))
    (hacct : mapLookup ctx1.accounts bad.account = some acct)
    (hmiss : mapLookup acct.lots bad.lotName = none)
    (hflag : bad.createLot = false) :
    ((xactApply (pre ++ bad :: post) ctx).2).isSome = true
    ∧ (xactApply (pre ++ bad :: post) ctx).1 = ctx1 := by
  unfold xactApply
  rw [hcheck, executeTransfers_append hpre]
  unfold executeTransfers
  rw [executeTransfer_missing hacct hmiss hflag]
  exact ⟨rfl, rfl⟩

/-! ## Claim C3: the transaction balance invariant -/

unseal Rat.add in
/-- C3 counterexample: two transfers in the same commodity summing to zero
on which `xact` nevertheless FAILS, because the second transfer's target lot
(`X` in `Equity`) does not exist and is not flagged for creation — the claim
"xact succeeds" does not hold for every zero-sum single-commodity
sequence. -/
theorem claim_C3_counterexample :
    (c10t1.transferQuantity.commodity = c10bad.transferQuantity.commodity
      ∧ sumTransfers [c10t1, c10bad] = 0)
    ∧ ((xactApply [c10t1, c10bad] c10Ctx).2).isSome = true := by
  refine ⟨⟨rfl, by decide⟩, by decide⟩

/-- C3 (amended): for at least two transfers whose exchange-aware quantities
share one commodity and sum to zero, and EACH OF WHICH is applicable (its
target lot exists in its account, or it is flagged for lot creation), `xact`
succeeds and applying each transfer changes its target lot's balance by
exactly that transfer's signed amount; when the quantities do not all share
the first transfer's commodity or do not sum to zero, `xact` fails with the
Context unchanged. -/
theorem claim_C3_theorem (t0 t1 : Transfer) (rest : List Transfer) (ctx : Context) :
    ((¬ ((∀ t ∈ t0 :: t1 :: rest, t.transferQuantity.commodity = t0.transferQuantity.commodity)
        ∧ sumTransfers (t0 :: t1 :: rest) = 0)) →
      (xactApply (t0 :: t1 :: rest) ctx).1 = ctx
      ∧ ((xactApply (t0 :: t1 :: rest) ctx).2).isSome = true)
    ∧ ((∀ t ∈ t0 :: t1 :: rest, t.transferQuantity.commodity = t0.transferQuantity.commodity) →
       sumTransfers (t0 :: t1 :: rest) = 0 →
       (∀ t ∈ t0 :: t1 :: rest, transferApplicable ctx t) →
        ((xactApply (t0 :: t1 :: rest) ctx).2 = none
        ∧ ∀ (i : Nat) (hi : i < (t0 :: t1 :: rest).length),
            lotBalance (executeTransfers ((t0 :: t1 :: rest).take (i + 1)) ctx).1
                ((t0 :: t1 :: rest).get ⟨i, hi⟩).account
                ((t0 :: t1 :: rest).get ⟨i, hi⟩).lotName
                ((t0 :: t1 :: rest).get ⟨i, hi⟩).quantity.commodity
              = lotBalance (executeTransfers ((t0 :: t1 :: rest).take i) ctx).1
                  ((t0 :: t1 :: rest).get ⟨i, hi⟩).account
                  ((t0 :: t1 :: rest).get ⟨i, hi⟩).lotName
                  ((t0 :: t1 :: rest).get ⟨i, hi⟩).quantity.commodity
                + ((t0 :: t1 :: rest).get ⟨i, hi⟩).quantity.amount)) := by
  constructor
  · intro hng
    cases hchk : checkTransfers (t0 :: t1 :: rest) with
    | none => exact absurd ((checkTransfers_none_iff t0 (t1 :: rest)).mp hchk) hng
    | some e =>
      unfold xactApply
      rw [hchk]
      exact ⟨rfl, rfl⟩
  · intro hcomm hsum happ
    have hchk : checkTransfers (t0 :: t1 :: rest) = none :=
      (checkTransfers_none_iff t0 (t1 :: rest)).mpr ⟨hcomm, hsum⟩
    constructor
    · unfold xactApply
      rw [hchk]
      exact (executeTransfers_ok_strong _ ctx happ).1
    · intro i hi
      have hstrongTake := executeTransfers_ok_strong ((t0 :: t1 :: rest).take i) ctx
        (fun t ht => happ t (List.mem_of_mem_take ht))
      have hpre : (executeTransfers ((t0 :: t1 :: rest).take i) ctx).2 = none :=
        hstrongTake.1
      rw [executeTransfers_take_succ i hi hpre]
      have happi : transferApplicable (executeTransfers ((t0 :: t1 :: rest).take i) ctx).1
          ((t0 :: t1 :: rest).get ⟨i, hi⟩) :=
        hstrongTake.2 _ (happ _ (List.get_mem _ _ _))
      obtain ⟨c', he⟩ := executeTransfer_isOk happi
      rw [show executeTransfers [(t0 :: t1 :: rest).get ⟨i, hi⟩]
            (executeTransfers ((t0 :: t1 :: rest).take i) ctx).1
          = (match executeTransfer ((t0 :: t1 :: rest).get ⟨i, hi⟩)
                (executeTransfers ((t0 :: t1 :: rest).take i) ctx).1 with
            | .ok c => (c, none)
            | .error e => ((executeTransfers ((t0 :: t1 :: rest).take i) ctx).1, some e))
          from rfl]
      simp only [he]
      exact executeTransfer_balance he

unseal Rat.add in
/-- C3 witness: the amended statement at a concrete input — the balancing
two-transfer transaction into the two default lots succeeds, and applying
the first transfer raises the target balance by exactly +5. -/
theorem claim_C3_witness :
    (xactApply [c10t1, c3t2] c10Ctx).2 = none
    ∧ lotBalance (executeTransfers ([c10t1, c3t2].take 1) c10Ctx).1 "Assets:A" "" "USD"
      = lotBalance (executeTransfers ([c10t1, c3t2].take 0) c10Ctx).1 "Assets:A" "" "USD"
        + (5 : ℚ) := by
  have happ : ∀ t ∈ [c10t1, c3t2], transferApplicable c10Ctx t := by
    intro t ht
    have hmem : t = c10t1 ∨ t = c3t2 := by simpa using ht
    rcases hmem with rfl | rfl
    · exact ⟨by unfold accountExists; decide,
        Or.inl ⟨NewAccount "Assets:A" ⟨2000, 1, 1⟩, by decide, by decide⟩⟩
    · exact ⟨by unfold accountExists; decide,
        Or.inl ⟨NewAccount "Equity" ⟨2000, 1, 1⟩, by decide, by decide⟩⟩
  have h := (claim_C3_theorem c10t1 c3t2 [] c10Ctx).2 (by decide) (by decide) happ
  exact ⟨h.1, h.2 0 (by decide)⟩

unseal Rat.add in
/-- C10 witness: the concrete two-transfer transaction whose second transfer
targets the missing lot `X`; `xact` errors, yet 5 USD remain in the default
lot of `Assets:A`. -/
theorem claim_C10_witness :
    (((xactApply [c10t1, c10bad] c10Ctx).2).isSome = true
      ∧ (xactApply [c10t1, c10bad] c10Ctx).1 = c10Ctx1)
    ∧ lotBalance c10Ctx1 "Assets:A" "" "USD" = 5
    ∧ lotBalance c10Ctx "Assets:A" "" "USD" = 0 :=
  ⟨claim_C10_theorem [c10t1] [] c10bad c10Ctx c10Ctx1 (NewAccount "Equity" ⟨2000, 1, 1⟩)
      (by decide) (by decide) (by decide) (by decide) rfl,
   by decide, by decide⟩

/-! ## Stack machine lemmas (claims C6 and C7) -/

/-- Any token-switch step preserves the silencing invariant. -/
theorem stepToken_inv {tbl : List (String × FuncImpl)} {st st' : PState} {tok : Token}
    (h : stepToken tbl st tok = .ok st') (hinv : PInv st) : PInv st' := by
  cases tok with
  | str s =>
    simp only [stepToken] at h
    by_cases hs : st.silenced ≠ 0
    · rw [if_pos hs] at h
      cases h
      exact hinv
    · rw [if_neg hs] at h
      by_cases hsl : s = "silence"
      · rw [if_pos hsl] at h
        split at h
        · cases h
        · cases h
          exact Nat.le_refl _
      · rw [if_neg hsl] at h
        split at h
        · split at h
          · cases h
          · cases h
            exact hinv
        · cases h
          exact hinv
  | quoted s =>
    simp only [stepToken] at h
    split at h <;> (cases h; exact hinv)
  | openParen =>
    simp only [stepToken] at h
    cases h
    exact Nat.le_trans hinv (by simp)
  | closeParen =>
    simp only [stepToken] at h
    split at h
    · cases h
    · rename_i idx rest hmk
      split at h
      · cases h
      · cases h
        show (if st.markerStack.length = st.silenced then 0 else st.silenced) ≤ rest.length
        unfold PInv at hinv
        rw [hmk] at hinv
        simp only [List.length_cons] at hinv
        split
        · exact Nat.zero_le _
        · rename_i hne
          rw [hmk] at hne
          simp only [List.length_cons] at hne
          omega

/-- A whole run preserves the silencing invariant. -/
theorem runTokens_inv {tbl : List (String × FuncImpl)} :
    ∀ {toks : List Token} {st st' : PState},
      runTokens tbl st toks = .ok st' → PInv st → PInv st' := by
  intro toks
  induction toks with
  | nil =>
    intro st st' h hinv
    simp only [runTokens, Except.ok.injEq] at h
    rw [← h]
    exact hinv
  | cons tok rest ih =>
    intro st st' h hinv
    unfold runTokens at h
    split at h
    · cases h
    · rename_i st1 hstep
      exact ih h (stepToken_inv hstep hinv)

/-! ## Claim C6: silencing -/

/-- C6: parsing `(silence fail)` never invokes the function registered as
`fail` — the run succeeds and returns to the initial state for EVERY
behaviour of that function, so the result cannot depend on it; while
silencing is active no string or quoted-string token changes the state (no
push, no dispatch); and an unquoted `silence` arriving in any reachable
state whose marker stack is empty is rejected as a syntax error. -/
theorem claim_C6_theorem :
    (∀ f : FuncImpl,
      runTokens [("fail", f)] initPState silenceProg = .ok initPState)
    ∧ (∀ (tbl : List (String × FuncImpl)) (st : PState) (s : String), st.silenced ≠ 0 →
        stepToken tbl st (.str s) = .ok st ∧ stepToken tbl st (.quoted s) = .ok st)
    ∧ (∀ (tbl : List (String × FuncImpl)) (toks : List Token) (st : PState),
        runTokens tbl initPState toks = .ok st → st.markerStack = [] →
        stepToken tbl st (.str "silence") = .error "found silence outside parentheses") := by
  refine ⟨fun f => rfl, ?_, ?_⟩
  · intro tbl st s hs
    constructor
    · simp only [stepToken]
      rw [if_pos hs]
    · simp only [stepToken]
      rw [if_pos hs]
  · intro tbl toks st h hmk
    have hinv := runTokens_inv h (by simp [PInv, initPState])
    unfold PInv at hinv
    rw [hmk] at hinv
    have hsil : st.silenced = 0 := Nat.le_zero.mp hinv
    simp [stepToken, hsil, hmk]

/-- C6 witness: the silenced program with an always-failing `fail` still
succeeds; a silenced state ignores a stray token; `silence` in the empty
initial state errors. -/
theorem claim_C6_witness :
    runTokens [("fail", fun _ => .error "boom")] initPState silenceProg = .ok initPState
    ∧ stepToken [] ⟨[], [5], 2⟩ (.str "anything") = .ok ⟨[], [5], 2⟩
    ∧ stepToken [] initPState (.str "silence")
        = .error "found silence outside parentheses" :=
  ⟨claim_C6_theorem.1 (fun _ => .error "boom"),
   (claim_C6_theorem.2.1 [] ⟨[], [5], 2⟩ "anything" (by decide)).1,
   claim_C6_theorem.2.2 [] [] initPState rfl rfl⟩

/-! ## Claim C7: `Finish` and scope-close checks -/

/-- C7: `Finish` succeeds exactly on a state with an empty operand stack, an
empty marker stack and no active silencing (the three failure conditions are
each fatal on their own); an unmatched close parenthesis fails at the
parenthesis, as does a scope that leaves operands above its marker. -/
theorem claim_C7_theorem :
    (∀ st : PState, st.operandStack = [] → st.markerStack = [] → st.silenced = 0 →
      finishRun st = .ok ())
    ∧ (∀ st : PState, st.operandStack ≠ [] → exceptOk (finishRun st) = false)
    ∧ (∀ st : PState, st.markerStack ≠ [] → exceptOk (finishRun st) = false)
    ∧ (∀ st : PState, st.silenced ≠ 0 → exceptOk (finishRun st) = false)
    ∧ (∀ (tbl : List (String × FuncImpl)) (st : PState), st.markerStack = [] →
        stepToken tbl st .closeParen
          = .error "closing parenthesis does not have a matching open parenthesis")
    ∧ (∀ (tbl : List (String × FuncImpl)) (st : PState) (idx : Nat) (rest : List Nat),
        st.markerStack = idx :: rest → idx ≠ st.operandStack.length →
        stepToken tbl st .closeParen = .error "unconsumed operands at closing parenthesis") := by
  refine ⟨?_, ?_, ?_, ?_, ?_, ?_⟩
  · intro st h1 h2 h3
    simp [finishRun, h1, h2, h3]
  · intro st h1
    have : st.operandStack.length > 0 := List.length_pos.mpr h1
    simp [finishRun, this, exceptOk]
  · intro st h1
    by_cases h0 : st.operandStack.length > 0
    · simp [finishRun, h0, exceptOk]
    · have : st.markerStack.length > 0 := List.length_pos.mpr h1
      simp [finishRun, h0, this, exceptOk]
  · intro st h1
    by_cases h0 : st.operandStack.length > 0
    · simp [finishRun, h0, exceptOk]
    · by_cases hm : st.markerStack.length > 0
      · simp [finishRun, h0, hm, exceptOk]
      · simp [finishRun, h0, hm, h1, exceptOk]
  · intro tbl st hmk
    simp only [stepToken, hmk]
  · intro tbl st idx rest hmk hne
    simp only [stepToken, hmk]
    rw [if_pos hne]

/-- C7 witness: the characterization at concrete states. -/
theorem claim_C7_witness :
    finishRun initPState = .ok ()
    ∧ exceptOk (finishRun ⟨[Value.text "x"], [], 0⟩) = false
    ∧ exceptOk (finishRun ⟨[], [0], 0⟩) = false
    ∧ exceptOk (finishRun ⟨[], [], 1⟩) = false
    ∧ stepToken [] initPState .closeParen
        = .error "closing parenthesis does not have a matching open parenthesis"
    ∧ stepToken [] ⟨[Value.text "x"], [0], 0⟩ .closeParen
        = .error "unconsumed operands at closing parenthesis" :=
  ⟨claim_C7_theorem.1 initPState rfl rfl rfl,
   claim_C7_theorem.2.1 _ (by simp),
   claim_C7_theorem.2.2.1 _ (by simp),
   claim_C7_theorem.2.2.2.1 _ (by simp),
   claim_C7_theorem.2.2.2.2.1 [] initPState rfl,
   claim_C7_theorem.2.2.2.2.2 [] ⟨[Value.text "x"], [0], 0⟩ 0 [] rfl (by simp)⟩

/-! ## Claim C8: the lexer at end of input -/

/-- C8 counterexample: at end of input with BOTH a pending escape and an
open quoted string (input `"\`), the lexer reports "unterminated quoted
string", not "unterminated escape" — `getFinalToken` checks the quoted
string first, so a pending escape does not always yield the unterminated-
escape kind as the claim states. -/
theorem claim_C8_counterexample :
    ((addRune (addRune initLexState '"').2 '\\').2).isEscaping = true
    ∧ (getNextToken initLexState ['"', '\\']).1 = .err .unterminatedString
    ∧ (getNextToken initLexState ['"', '\\']).1 ≠ .err .unterminatedEscape := by
  refine ⟨rfl, rfl, by decide⟩

/-- C8 (amended): at end of input (no buffered structural token pending) the
lexer reports "unterminated quoted string" whenever a quoted string is still
open (even if an escape is also pending), "unterminated escape" when an
escape is pending outside a quoted string, emits the final `Text` token when
an unquoted string is open with no pending escape — with only the FOLLOWING
call yielding end-of-stream — and yields end-of-stream directly when nothing
is pending. -/
theorem claim_C8_theorem (l : LexState)
    (hop : l.openParenSet = false) (hcl : l.closeParenSet = false) :
    (l.isInQuotedString = true →
      getNextToken l [] = (.err .unterminatedString, l, []))
    ∧ (l.isInQuotedString = false → l.isEscaping = true →
      getNextToken l [] = (.err .unterminatedEscape, l, []))
    ∧ (l.isInQuotedString = false → l.isEscaping = false → l.isInString = true →
      getNextToken l [] = (.str l.token, { l with isInString := false }, [])
      ∧ getNextToken { l with isInString := false } []
          = (.err .eof, { l with isInString := false }, []))
    ∧ (l.isInQuotedString = false → l.isEscaping = false → l.isInString = false →
      getNextToken l [] = (.err .eof, l, [])) := by
  refine ⟨?_, ?_, ?_, ?_⟩
  · intro hq
    simp [getNextToken, hop, hcl, getNextToken.consume, getFinalToken, hq]
  · intro hq he
    simp [getNextToken, hop, hcl, getNextToken.consume, getFinalToken, hq, he]
  · intro hq he hs
    constructor
    · simp [getNextToken, hop, hcl, getNextToken.consume, getFinalToken, hq, he, hs]
    · simp [getNextToken, hop, hcl, getNextToken.consume, getFinalToken, hq, he, hs]
  · intro hq he hs
    simp [getNextToken, hop, hcl, getNextToken.consume, getFinalToken, hq, he, hs]

/-- C8 witness: the four end-of-input behaviours at concrete lexer states,
including the final-`Text`-then-EOF two-call sequence. -/
theorem claim_C8_witness :
    getNextToken ⟨1, false, true, true, ['a'], false, false⟩ []
      = (.err .unterminatedString, ⟨1, false, true, true, ['a'], false, false⟩, [])
    ∧ getNextToken ⟨1, true, true, false, ['a'], false, false⟩ []
      = (.err .unterminatedEscape, ⟨1, true, true, false, ['a'], false, false⟩, [])
    ∧ (getNextToken ⟨1, false, true, false, ['a', 'b'], false, false⟩ []
        = (.str ['a', 'b'], ⟨1, false, false, false, ['a', 'b'], false, false⟩, [])
      ∧ getNextToken ⟨1, false, false, false, ['a', 'b'], false, false⟩ []
        = (.err .eof, ⟨1, false, false, false, ['a', 'b'], false, false⟩, []))
    ∧ getNextToken initLexState [] = (.err .eof, initLexState, []) :=
  ⟨(claim_C8_theorem ⟨1, false, true, true, ['a'], false, false⟩ rfl rfl).1 rfl,
   (claim_C8_theorem ⟨1, true, true, false, ['a'], false, false⟩ rfl rfl).2.1 rfl rfl,
   (claim_C8_theorem ⟨1, false, true, false, ['a', 'b'], false, false⟩ rfl rfl).2.2.1
      rfl rfl rfl,
   (claim_C8_theorem initLexState rfl rfl).2.2.2 rfl rfl rfl⟩

/-! ## Tagging lemmas (claim C9) -/

/-- The shared tag-set insert (`map[tag] = true`): starting from at most one
membership, inserting leaves exactly one. -/
theorem tagSetInsert_count {l : List String} {tg : String} (h : l.count tg ≤ 1) :
    (if tg ∈ l then l else l ++ [tg]).count tg = 1 := by
  by_cases hm : tg ∈ l
  · rw [if_pos hm]
    have h1 : 1 ≤ l.count tg := List.one_le_count_iff.mpr hm
    omega
  · rw [if_neg hm]
    rw [List.count_append, List.count_eq_zero_of_not_mem hm]
    simp

theorem Account.AddTag_count {a : Account} {tg : String} (h : a.tags.count tg ≤ 1) :
    ((a.AddTag tg).tags).count tg = 1 := by
  unfold Account.AddTag
  split
  · rename_i hm
    have h1 : 1 ≤ a.tags.count tg := List.one_le_count_iff.mpr hm
    omega
  · rename_i hm
    show (a.tags ++ [tg]).count tg = 1
    rw [List.count_append, List.count_eq_zero_of_not_mem hm]
    simp

theorem Commodity.AddTag_tagCount {c : Commodity} {tg : String} (h : c.tags.count tg ≤ 1) :
    ((c.AddTag tg).tags).count tg = 1 := by
  unfold Commodity.AddTag
  split
  · rename_i hm
    have h1 : 1 ≤ c.tags.count tg := List.one_le_count_iff.mpr hm
    omega
  · rename_i hm
    show (c.tags ++ [tg]).count tg = 1
    rw [List.count_append, List.count_eq_zero_of_not_mem hm]
    simp

theorem Account.AddTag_IsClosed (a : Account) (tg : String) (d : Date) :
    (a.AddTag tg).IsClosed d = a.IsClosed d := by
  unfold Account.AddTag
  split <;> rfl

/-- One `tagIndexAdd` step leaves exactly one membership in the entry when
at most one was there before. -/
theorem tagIndexAdd_count {tags : List (String × List TagTarget)} {tg : String}
    {tgt : TagTarget} (h : ((mapLookup tags tg).getD []).count tgt ≤ 1) :
    ((mapLookup (tagIndexAdd tags tg tgt) tg).getD []).count tgt = 1 := by
  cases hm : mapLookup tags tg with
  | none =>
    simp only [tagIndexAdd, hm]
    rw [mapLookup_mapInsert_self]
    simp
  | some tts =>
    rw [hm] at h
    simp only [Option.getD_some] at h
    simp only [tagIndexAdd, hm]
    by_cases hmem : tgt ∈ tts
    · rw [if_pos hmem, hm]
      have h1 : 1 ≤ tts.count tgt := List.one_le_count_iff.mpr hmem
      simp only [Option.getD_some]
      omega
    · rw [if_neg hmem, mapLookup_mapInsert_self]
      simp only [Option.getD_some]
      rw [List.count_append, List.count_eq_zero_of_not_mem hmem]
      simp

/-- The swap-remove loop is the identity when the target never occurs in the
live region. -/
theorem goSwapRemoveAux_id (arr : Array TagTarget) (tgt : TagTarget) (m n : Nat)
    (h : ∀ i, m ≤ i → i < n → arr.getD i tgt ≠ tgt) :
    goSwapRemoveAux arr tgt m n = (arr, n) := by
  unfold goSwapRemoveAux
  split
  · rename_i hmn
    rw [if_neg (h m (Nat.le_refl m) hmn)]
    exact goSwapRemoveAux_id arr tgt (m + 1) n (fun i h1 h2 => h i (Nat.le_of_succ_le h1) h2)
  · rfl
termination_by n - m
decreasing_by omega

/-- `UntagFunction`'s removal loop leaves an entry without the target
untouched. -/
theorem goSwapRemove_of_not_mem {tts : List TagTarget} {tgt : TagTarget} (h : tgt ∉ tts) :
    goSwapRemove tts tgt = tts := by
  unfold goSwapRemove
  rw [goSwapRemoveAux_id]
  · show List.take tts.length tts.toArray.toList = tts
    rw [Array.toList_toArray]
    simp
  · intro i h1 h2 hc
    apply h
    rw [← hc]
    have hlt : i < tts.toArray.size := by simpa using h2
    rw [Array.getD, dif_pos hlt]
    show tts[i] ∈ tts
    exact List.getElem_mem h2

/-- With the target absent from the (nonempty) index entry — or no entry at
all — `untagIndexRemove` is the identity. -/
theorem untagIndexRemove_id {tags : List (String × List TagTarget)} {tg : String}
    {tgt : TagTarget}
    (h : ∀ tts, mapLookup tags tg = some tts → tgt ∉ tts ∧ tts ≠ []) :
    untagIndexRemove tags tg tgt = tags := by
  cases hm : mapLookup tags tg with
  | none => simp only [untagIndexRemove, hm]
  | some tts =>
    obtain ⟨hmem, hne⟩ := h tts hm
    simp only [untagIndexRemove, hm]
    rw [goSwapRemove_of_not_mem hmem]
    rw [if_pos (by simpa using hne)]
    exact mapInsert_self_of_lookup _ _ _ hm

/-- Removing a tag the account does not carry leaves the account intact. -/
theorem Account.RemoveTag_id {a : Account} {tg : String} (h : tg ∉ a.tags) :
    a.RemoveTag tg = a := by
  unfold Account.RemoveTag
  have : a.tags.filter (· ≠ tg) = a.tags := by
    apply List.filter_eq_self.mpr
    intro x hx
    simp only [ne_eq, decide_not, Bool.not_eq_true']
    exact decide_eq_false (fun hc : x = tg => h (hc ▸ hx))
  rw [this]

/-! ## Claim C9: tagging is idempotent, untag of an absent tag is a no-op -/

/-- C9: tagging an existing open account (or an existing commodity) twice
with the same tag leaves exactly one membership in the entity's tag set and
exactly one entry for the entity in the global tag index; and `untag` for a
tag the account does not carry (and whose index entry, if any, is nonempty
and lacks the account) succeeds and leaves the Context exactly unchanged. -/
theorem claim_C9_theorem :
    (∀ (ctx : Context) (an tg : String) (acct : Account),
      mapLookup ctx.accounts an = some acct → acct.IsClosed ctx.date = false →
      tagIndexCount ctx tg (.account an) ≤ 1 → acct.tags.count tg ≤ 1 →
      ∃ ctx1 ctx2,
        tagFn [Value.text an, Value.text tg] ctx = .ok ([], ctx1)
        ∧ tagFn [Value.text an, Value.text tg] ctx1 = .ok ([], ctx2)
        ∧ tagIndexCount ctx2 tg (.account an) = 1
        ∧ accountTagCount ctx2 an tg = 1)
    ∧ (∀ (ctx : Context) (cn tg : String) (c : Commodity),
      mapLookup ctx.commodities cn = some c →
      tagIndexCount ctx tg (.commodity cn) ≤ 1 → c.tags.count tg ≤ 1 →
      ∃ ctx1 ctx2,
        tagCommodityFn [Value.text cn, Value.text tg] ctx = .ok ([], ctx1)
        ∧ tagCommodityFn [Value.text cn, Value.text tg] ctx1 = .ok ([], ctx2)
        ∧ tagIndexCount ctx2 tg (.commodity cn) = 1
        ∧ commodityTagCount ctx2 cn tg = 1)
    ∧ (∀ (ctx : Context) (an tg : String) (acct : Account),
      mapLookup ctx.accounts an = some acct → acct.IsClosed ctx.date = false →
      tg ∉ acct.tags →
      (∀ tts, mapLookup ctx.tags tg = some tts → TagTarget.account an ∉ tts ∧ tts ≠ []) →
      untagFn [Value.text an, Value.text tg] ctx = .ok ([], ctx)) := by
  have htag : ∀ (c : Context) (an tg : String) (a : Account),
      mapLookup c.accounts an = some a → a.IsClosed c.date = false →
      tagFn [Value.text an, Value.text tg] c
        = .ok ([], ⟨c.date, mapInsert c.accounts an (a.AddTag tg), c.commodities,
            tagIndexAdd c.tags tg (.account an)⟩) := by
    intro c an tg a hl hc
    simp [tagFn, trailingText, beforeTrailingText, Value.isText, Value.textOf,
      hl, hc, tagAccountLoop]
  have htagc : ∀ (c : Context) (cn tg : String) (co : Commodity),
      mapLookup c.commodities cn = some co →
      tagCommodityFn [Value.text cn, Value.text tg] c
        = .ok ([], ⟨c.date, c.accounts, mapInsert c.commodities cn (co.AddTag tg),
            tagIndexAdd c.tags tg (.commodity cn)⟩) := by
    intro c cn tg co hl
    simp [tagCommodityFn, trailingText, beforeTrailingText, Value.isText, Value.textOf,
      hl, tagCommodityLoop]
  refine ⟨?_, ?_, ?_⟩
  · intro ctx an tg acct hlook hcl hidx hcnt
    have h1 := htag ctx an tg acct hlook hcl
    have hlook1 : mapLookup (mapInsert ctx.accounts an (acct.AddTag tg)) an
        = some (acct.AddTag tg) := mapLookup_mapInsert_self _ _ _
    have h2 := htag ⟨ctx.date, mapInsert ctx.accounts an (acct.AddTag tg), ctx.commodities,
        tagIndexAdd ctx.tags tg (.account an)⟩ an tg (acct.AddTag tg) hlook1
      (by rw [Account.AddTag_IsClosed]; exact hcl)
    refine ⟨_, _, h1, h2, ?_, ?_⟩
    · show ((mapLookup (tagIndexAdd (tagIndexAdd ctx.tags tg (.account an)) tg
        (.account an)) tg).getD []).count (TagTarget.account an) = 1
      have hfst := tagIndexAdd_count hidx
      exact tagIndexAdd_count (by rw [hfst])
    · show accountTagCount _ an tg = 1
      unfold accountTagCount
      rw [show (⟨ctx.date, mapInsert (mapInsert ctx.accounts an (acct.AddTag tg)) an
          ((acct.AddTag tg).AddTag tg), ctx.commodities,
          tagIndexAdd (tagIndexAdd ctx.tags tg (.account an)) tg (.account an)⟩ :
            Context).accounts
          = mapInsert (mapInsert ctx.accounts an (acct.AddTag tg)) an
            ((acct.AddTag tg).AddTag tg) from rfl]
      rw [mapLookup_mapInsert_self]
      exact Account.AddTag_count (by rw [Account.AddTag_count hcnt])
  · intro ctx cn tg c hlook hidx hcnt
    have h1 := htagc ctx cn tg c hlook
    have hlook1 : mapLookup (mapInsert ctx.commodities cn (c.AddTag tg)) cn
        = some (c.AddTag tg) := mapLookup_mapInsert_self _ _ _
    have h2 := htagc ⟨ctx.date, ctx.accounts, mapInsert ctx.commodities cn (c.AddTag tg),
        tagIndexAdd ctx.tags tg (.commodity cn)⟩ cn tg (c.AddTag tg) hlook1
    refine ⟨_, _, h1, h2, ?_, ?_⟩
    · show ((mapLookup (tagIndexAdd (tagIndexAdd ctx.tags tg (.commodity cn)) tg
        (.commodity cn)) tg).getD []).count (TagTarget.commodity cn) = 1
      have hfst := tagIndexAdd_count hidx
      exact tagIndexAdd_count (by rw [hfst])
    · show commodityTagCount _ cn tg = 1
      unfold commodityTagCount
      rw [show (⟨ctx.date, ctx.accounts, mapInsert (mapInsert ctx.commodities cn
          (c.AddTag tg)) cn ((c.AddTag tg).AddTag tg),
          tagIndexAdd (tagIndexAdd ctx.tags tg (.commodity cn)) tg (.commodity cn)⟩ :
            Context).commodities
          = mapInsert (mapInsert ctx.commodities cn (c.AddTag tg)) cn
            ((c.AddTag tg).AddTag tg) from rfl]
      rw [mapLookup_mapInsert_self]
      exact Commodity.AddTag_tagCount (by rw [Commodity.AddTag_tagCount hcnt])
  · intro ctx an tg acct hlook hcl hnm hidx
    have hrun : untagFn [Value.text an, Value.text tg] ctx
        = .ok ([], ⟨ctx.date, mapInsert ctx.accounts an (acct.RemoveTag tg),
            ctx.commodities, untagIndexRemove ctx.tags tg (.account an)⟩) := by
      simp [untagFn, trailingText, beforeTrailingText, Value.isText, Value.textOf,
        hlook, hcl, untagAccountLoop]
    rw [hrun, Account.RemoveTag_id hnm, mapInsert_self_of_lookup _ _ _ hlook,
      untagIndexRemove_id hidx]

/-- C9 witness: tagging `Assets:A` twice with `foo` in the concrete Context
leaves one membership in both places; untagging the absent tag `bar` leaves
the Context unchanged. -/
theorem claim_C9_witness :
    (∃ ctx1 ctx2,
      tagFn [Value.text "Assets:A", Value.text "foo"] c10Ctx = .ok ([], ctx1)
      ∧ tagFn [Value.text "Assets:A", Value.text "foo"] ctx1 = .ok ([], ctx2)
      ∧ tagIndexCount ctx2 "foo" (.account "Assets:A") = 1
      ∧ accountTagCount ctx2 "Assets:A" "foo" = 1)
    ∧ untagFn [Value.text "Assets:A", Value.text "bar"] c10Ctx = .ok ([], c10Ctx) :=
  ⟨claim_C9_theorem.1 c10Ctx "Assets:A" "foo" (NewAccount "Assets:A" ⟨2000, 1, 1⟩)
      (by decide) (by decide) (by decide) (by decide),
   claim_C9_theorem.2.2 c10Ctx "Assets:A" "bar" (NewAccount "Assets:A" ⟨2000, 1, 1⟩)
      (by decide) (by decide) (by decide) (fun tts htts => by simp [c10Ctx, mapLookup] at htts)⟩

end Freebean
